import Mathlib

/-!
Shallow embedding of the schema-driven transformation engine in
src/elasticsearch/etl/transform.py (gen3_etl repository).

Modelling conventions:
- Python scalar values are modelled by `Val` (None / number / string /
  list-of-strings).  Numbers are modelled as integers; fractional float
  parsing in `to_num` is not modelled (no claim depends on it).
- A raw graph-export record (a Python dict) is modelled by `SrcRecord`:
  the system keys `id`, `submitter_id`, `type` and the relationship stub
  arrays `subjects`, `persons`, `timings` are explicit fields (an `Option`
  models key presence), all remaining keys live in the `fields`
  association list.
- Python dicts used as ordered maps are modelled as association lists,
  preserving insertion order exactly as CPython dicts do.
- Fallible code paths (KeyError, TypeError, ValueError, RuntimeError,
  AttributeError, StopIteration) are modelled with `Except String`.
- Python string helpers that the source relies on (split, strip, int
  parsing, substring test) are re-implemented structurally so that every
  definition kernel-evaluates on concrete inputs.
-/

namespace Gen3Etl

instance {ε α : Type} [DecidableEq ε] [DecidableEq α] : DecidableEq (Except ε α) := fun x y =>
  match x, y with
  | Except.ok a, Except.ok b =>
    if h : a = b then Decidable.isTrue (congrArg Except.ok h)
    else Decidable.isFalse (fun hc => h (Except.ok.inj hc))
  | Except.error a, Except.error b =>
    if h : a = b then Decidable.isTrue (congrArg Except.error h)
    else Decidable.isFalse (fun hc => h (Except.error.inj hc))
  | Except.ok _, Except.error _ => Decidable.isFalse (fun hc => Except.noConfusion hc)
  | Except.error _, Except.ok _ => Decidable.isFalse (fun hc => Except.noConfusion hc)

/-- A Python scalar/array value as it occurs in graph-export records. -/
inductive Val where
  | null : Val
  | num : Int → Val
  | str : String → Val
  | arr : List String → Val
deriving DecidableEq

/-- Python truthiness for `Val`: None, 0, empty string and empty list are falsy. -/
def truthy : Val → Bool
  | Val.null => false
  | Val.num n => n != 0
  | Val.str s => s != ""
  | Val.arr xs => !xs.isEmpty

/-- Split a character list at every occurrence of `c` (Python str.split semantics). -/
def splitCharList (c : Char) : List Char → List (List Char)
  | [] => [[]]
  | x :: xs =>
    match splitCharList c xs with
    | [] => [[]]
    | h :: t => if x = c then [] :: h :: t else (x :: h) :: t

/-- Python `s.split(c)` for a one character separator. -/
def pySplit (s : String) (c : Char) : List String :=
  (splitCharList c s.data).map (fun l => String.mk l)

/-- Python `c in s` for a single character. -/
def containsChar (s : String) (c : Char) : Bool := s.data.contains c

/-- Whitespace characters recognised by the modelled `str.strip`. -/
def isSpaceChar (c : Char) : Bool := c = ' ' || c = '\t' || c = '\n' || c = '\r'

/-- Drop leading whitespace characters. -/
def dropLeadingSpaces : List Char → List Char
  | [] => []
  | c :: cs => if isSpaceChar c then dropLeadingSpaces cs else c :: cs

/-- Python `s.strip()`. -/
def pyStrip (s : String) : String :=
  String.mk (dropLeadingSpaces ((dropLeadingSpaces s.data.reverse).reverse))

/-- Accumulate decimal digits into a natural number; fails on a non digit. -/
def digitsToNat : List Char → Nat → Option Nat
  | [], acc => some acc
  | c :: cs, acc =>
    if c.isDigit then digitsToNat cs (acc * 10 + (c.toNat - '0'.toNat)) else none

/-- Integer parsing as used by the modelled `to_num` (Python float() restricted
to integral literals; fractional literals are outside the model). -/
def pyParseNum (s : String) : Option Int :=
  match (pyStrip s).data with
  | [] => none
  | c :: rest =>
    if c = '-' then
      if rest.isEmpty then none else (digitsToNat rest 0).map (fun n => -(n : Int))
    else (digitsToNat (c :: rest) 0).map (fun n => (n : Int))

/-- Embedding of transform.to_num: convert a value to a number, TypeError or
ValueError on non numeric input. -/
def to_num (v : Val) : Except String Val :=
  match v with
  | Val.num n => Except.ok (Val.num n)
  | Val.str s =>
    match pyParseNum s with
    | some n => Except.ok (Val.num n)
    | none => Except.error "ValueError: could not convert string to number"
  | _ => Except.error "TypeError: not a number or numeric string"

/-- Embedding of transform.to_array: an already split list passes through, a
string is split on commas (csv quoting is not modelled; no claim uses it). -/
def to_array (v : Val) : Except String Val :=
  match v with
  | Val.arr xs => Except.ok (Val.arr xs)
  | Val.str s => Except.ok (Val.arr (pySplit s ','))
  | _ => Except.error "TypeError: value has no splitlines"

/-- A relationship stub as exported from the graph database. -/
structure Stub where
  node_id : String
  submitter_id : String
deriving DecidableEq

/-- A raw source record (one Python dict of the graph export). -/
structure SrcRecord where
  id : String
  submitter_id : String
  typ : Option String
  fields : List (String × Val)
  subjects : Option (List Stub)
  persons : Option (List Stub)
  timings : Option (List Stub)
deriving DecidableEq

/-- A flattened output record (new_record in populate_node_record), an ordered
field map. -/
abbrev NodeRecord := List (String × Val)

/-- A timing event produced by get_timings_by_subject_id. -/
abbrev Timing := NodeRecord

/-- Node type names fixed in the source. -/
def NODE_TYPE_BIOSPECIMEN : String := "biospecimen"

def NODE_TYPE_PERSON : String := "person"

def NODE_TYPE_SUBJECT : String := "subject"

def NODE_TYPE_SURVIVAL_CHARACTERISTIC : String := "survival_characteristic"

def BIOSPECIMEN_STATUS_FIELD : String := "biospecimen_status"

def BIOSPECIMEN_STATUS_PRESENT : String := "COG Biopathology Center"

/-- Python `source_record.get(field, None)` over the full record dict,
covering the system keys as well as the declared fields. -/
def recordGetVal (r : SrcRecord) (f : String) : Option Val :=
  if f = "id" then some (Val.str r.id)
  else if f = "submitter_id" then some (Val.str r.submitter_id)
  else if f = "type" then r.typ.map Val.str
  else r.fields.lookup f

/-- Python dict assignment on an ordered association list: overwrite the
first entry with the key in place, or append a new entry at the end. -/
def setEntry {α : Type} : List (String × α) → String → α → List (String × α)
  | [], k, v => [(k, v)]
  | p :: rest, k, v => if p.1 = k then (k, v) :: rest else p :: setEntry rest k v

/-- Python list append under a dict key, creating the key on first use. -/
def appendEntry {α : Type} : List (String × List α) → String → α → List (String × List α)
  | [], k, x => [(k, [x])]
  | p :: rest, k, x => if p.1 = k then (p.1, p.2 ++ [x]) :: rest else p :: appendEntry rest k x

/-- In place replacement of the value stored under an existing dict key
(mutation of the shared object in the source); absent keys are untouched. -/
def updateEntry {α : Type} : List (String × α) → String → α → List (String × α)
  | [], _, _ => []
  | p :: rest, k, v => if p.1 = k then (p.1, v) :: rest else p :: updateEntry rest k v

/-- Set or overwrite a field on an output record, preserving dict insertion
order (Python dict assignment). -/
def setField (nr : NodeRecord) (k : String) (v : Val) : NodeRecord :=
  setEntry nr k v

/-- Python dict.update: merge `src` into `nr`, overwriting existing keys. -/
def mergeFields (nr : NodeRecord) (src : NodeRecord) : NodeRecord :=
  src.foldl (fun acc p => setField acc p.1 p.2) nr

/-- Embedding of transform.get_pluralized_node_type_name. -/
def get_pluralized_node_type_name (nt : String) : String :=
  if nt = "molecular_analysis" || nt = "secondary_malignant_neoplasm"
      || nt = "submitted_unaligned_reads" then nt
  else if nt.data.getLast? = some 'y' then String.mk nt.data.dropLast ++ "ies"
  else nt ++ "s"

/-- A field coercion rule entry (node_type_fields_to_set values). -/
structure FieldSpec where
  is_number : Bool
  unset_if_null : Bool
  is_array : Bool
deriving DecidableEq

/-- A suppression rule value from the SUPPRESSED_FIELDS configuration; the
three required keys are modelled as always present (the missing key
RuntimeError path of the source is outside every claim). -/
structure SuppressionRule where
  control_field : String
  allowed : List String
  blocked : List String
deriving DecidableEq

/-- A data dictionary node entry reduced to what the engine inspects for
links: the list of link names. -/
structure NodeDef where
  links : List String
deriving DecidableEq

/-- A subject aggregate document. System attributes are explicit fields,
scalar fields and pluralized child collections are ordered maps. -/
structure Subject where
  subject_id : String
  submitter_id : String
  fields : List (String × Val)
  children : List (String × List NodeRecord)
deriving DecidableEq

/-- One value of the subject aggregate dict: a scalar or a child collection. -/
inductive SubjItem where
  | scalar : Val → SubjItem
  | coll : List NodeRecord → SubjItem
deriving DecidableEq

/-- The subject aggregate viewed as the single ordered Python dict it is in
the source (system attributes, then scalar fields, then child collections). -/
def Subject.items (s : Subject) : List (String × SubjItem) :=
  ("_subject_id", SubjItem.scalar (Val.str s.subject_id)) ::
  ("subject_submitter_id", SubjItem.scalar (Val.str s.submitter_id)) ::
  (s.fields.map (fun p => (p.1, SubjItem.scalar p.2)) ++
    s.children.map (fun p => (p.1, SubjItem.coll p.2)))

/-- Python `value.strip()` applied to the result of a `.get(key, '')` on a
plain dict: missing gives the empty string, a non string value raises. -/
def stripOptVal (v : Option Val) : Except String String :=
  match v with
  | none => Except.ok ""
  | some (Val.str s) => Except.ok (pyStrip s)
  | some _ => Except.error "AttributeError: value has no strip"

/-- Same as stripOptVal but over a subject aggregate dict item. -/
def getItemStr (it : Option SubjItem) : Except String String :=
  match it with
  | none => Except.ok ""
  | some (SubjItem.scalar (Val.str s)) => Except.ok (pyStrip s)
  | some _ => Except.error "AttributeError: value has no strip"

/-- Python `source_record.get(control_field, '').strip()` over the full
record dict, including the system and relationship keys. -/
def recordGetStr (r : SrcRecord) (k : String) : Except String String :=
  if k = "id" then Except.ok (pyStrip r.id)
  else if k = "submitter_id" then Except.ok (pyStrip r.submitter_id)
  else if k = "type" then
    match r.typ with
    | some t => Except.ok (pyStrip t)
    | none => stripOptVal (r.fields.lookup k)
  else if k = "subjects" then
    match r.subjects with
    | some _ => Except.error "AttributeError: list has no strip"
    | none => stripOptVal (r.fields.lookup k)
  else if k = "persons" then
    match r.persons with
    | some _ => Except.error "AttributeError: list has no strip"
    | none => stripOptVal (r.fields.lookup k)
  else if k = "timings" then
    match r.timings with
    | some _ => Except.error "AttributeError: list has no strip"
    | none => stripOptVal (r.fields.lookup k)
  else stripOptVal (r.fields.lookup k)

/-- Parse a suppression rule key into (suppressed type, suppressed field):
with a dot, first and last dot separated components stripped; without a dot
the type is the wildcard and the field is the whole key. -/
def parseSuppressedKey (k : String) : String × String :=
  if containsChar k '.' then
    (pyStrip ((pySplit k '.').headD ""), pyStrip ((pySplit k '.').getLastD ""))
  else ("*", pyStrip k)

/-- Parse the control field owner type: first dot component, wildcard when
the control field has no dot. -/
def parseControlType (cf : String) : String :=
  pyStrip (if containsChar cf '.' then (pySplit cf '.').headD "" else "*")

/-- Parse the control field name: last dot component, wildcard when the
control field has no dot. -/
def parseControlField (cf : String) : String :=
  pyStrip (if containsChar cf '.' then (pySplit cf '.').getLastD "" else "*")

/-- Collect stripped control field values from the records of one subject
dict item, mirroring the isinstance(list) filter of the source: a scalar
array field is a Python list of strings, so examining it raises. -/
def collectFromItem (ct cfld pluralCt : String) (k : String) (it : SubjItem) :
    Except String (List String) :=
  match it with
  | SubjItem.scalar (Val.arr xs) =>
    if ct != "*" && k != pluralCt then Except.ok []
    else if xs.isEmpty then Except.ok []
    else Except.error "AttributeError: string has no get"
  | SubjItem.scalar _ => Except.ok []
  | SubjItem.coll rs =>
    if ct != "*" && k != pluralCt then Except.ok []
    else rs.foldlM (fun acc rec0 => do
      let s ← stripOptVal (rec0.lookup cfld)
      Except.ok (acc ++ [s])) []

/-- Collect control values across every item of one subject aggregate dict. -/
def collectFromItems (ct cfld pluralCt : String) :
    List (String × SubjItem) → Except String (List String)
  | [] => Except.ok []
  | (k, it) :: rest => do
    let vs ← collectFromItem ct cfld pluralCt k it
    let more ← collectFromItems ct cfld pluralCt rest
    Except.ok (vs ++ more)

/-- Collect control values across the subject stubs of the current record,
resolving each stub against the already built subject map; an unresolved
stub (or an absent map) makes the subsequent attribute access raise. -/
def collectFromStubs (ct cfld : String) (subjects : Option (List (String × Subject))) :
    List Stub → Except String (List String)
  | [] => Except.ok []
  | stub :: rest =>
    match subjects with
    | none => Except.error "AttributeError: NoneType has no get"
    | some smap =>
      match smap.lookup stub.submitter_id with
      | none => Except.error "AttributeError: NoneType has no get"
      | some subj => do
        let vs ←
          if ct = NODE_TYPE_SUBJECT then
            (getItemStr (subj.items.lookup cfld)).map (fun s => [s])
          else collectFromItems ct cfld (get_pluralized_node_type_name ct) subj.items
        let more ← collectFromStubs ct cfld subjects rest
        Except.ok (vs ++ more)

/-- Collect all control field values for a record: the direct value when the
current node type owns the control field, plus the values found through the
associated subject aggregates. -/
def collectControlValues (ct cfld nt : String) (r : SrcRecord)
    (subjects : Option (List (String × Subject))) : Except String (List String) := do
  let direct ← if nt = ct then (recordGetStr r cfld).map (fun s => [s]) else Except.ok []
  let rest ← collectFromStubs ct cfld subjects (r.subjects.getD [])
  Except.ok (direct ++ rest)

/-- The part of can_populate_node_record_field that runs once the first
configured rule key has passed the mismatch check: wildcard short circuits
(allow before deny, both before any control value collection), then the
allow list, then the block list, default allow. -/
def canPopulateMatched (ruleSpec : SuppressionRule) (nt : String) (r : SrcRecord)
    (subjects : Option (List (String × Subject))) : Except String Bool :=
  if ruleSpec.allowed.contains "*" then Except.ok true
  else if ruleSpec.blocked.contains "*" then Except.ok false
  else do
    let vals ← collectControlValues (parseControlType ruleSpec.control_field)
      (parseControlField ruleSpec.control_field) nt r subjects
    if !ruleSpec.allowed.isEmpty then
      Except.ok (vals.any (fun v => ruleSpec.allowed.contains v))
    else if !ruleSpec.blocked.isEmpty then
      Except.ok (vals.all (fun v => !ruleSpec.blocked.contains v))
    else Except.ok true

/-- Whether any of the three candidate rule keys is configured. -/
def ruleKeyMatches (cfg : List (String × SuppressionRule)) (nt fn : String) : Bool :=
  (cfg.lookup fn).isSome || (cfg.lookup (nt ++ "." ++ fn)).isSome
    || (cfg.lookup ("*." ++ fn)).isSome

/-- Embedding of transform.can_populate_node_record_field.  Note the source
reads the FIRST configured rule key (next over the dict iterator), not the
key that matched the membership test; a first key that does not match the
queried field raises. -/
def can_populate_node_record_field (cfg : List (String × SuppressionRule))
    (nt fn : String) (r : SrcRecord) (subjects : Option (List (String × Subject))) :
    Except String Bool :=
  if !ruleKeyMatches cfg nt fn then Except.ok true
  else
    match cfg with
    | [] => Except.error "StopIteration: empty suppression config"
    | (k, ruleSpec) :: _ =>
      if (parseSuppressedKey k).2 != fn
          || ((parseSuppressedKey k).1 != nt && (parseSuppressedKey k).1 != "*") then
        Except.error "RuntimeError: unexpected mismatch between input and suppressed rule field"
      else canPopulateMatched ruleSpec nt r subjects

/-- The per field body of the population loop in populate_node_record:
`some v` means the output record gets the field with value v (possibly the
explicit null of the unset_if_null retraction), `none` means the field is
omitted entirely. -/
def populateFieldValue (cfg : List (String × SuppressionRule)) (nt : String)
    (r : SrcRecord) (subjects : Option (List (String × Subject)))
    (f : String) (spec : FieldSpec) : Except String (Option Val) :=
  match recordGetVal r f with
  | some v =>
    if v = Val.null then
      if spec.unset_if_null then Except.ok (some Val.null) else Except.ok none
    else do
      let ok ← can_populate_node_record_field cfg nt f r subjects
      if ok then do
        let w ← if spec.is_number then to_num v
                else if spec.is_array then to_array v
                else Except.ok v
        Except.ok (some w)
      else if spec.unset_if_null then Except.ok (some Val.null) else Except.ok none
  | none => if spec.unset_if_null then Except.ok (some Val.null) else Except.ok none

/-- The field population loop of populate_node_record over the rule table of
one node type, building the new record in rule order. -/
def populate_fields (cfg : List (String × SuppressionRule)) (nt : String)
    (r : SrcRecord) (subjects : Option (List (String × Subject))) :
    List (String × FieldSpec) → Except String NodeRecord
  | [] => Except.ok []
  | (f, spec) :: rest => do
    let v? ← populateFieldValue cfg nt r subjects f spec
    let tail ← populate_fields cfg nt r subjects rest
    Except.ok ((v?.map (fun v => (f, v))).toList ++ tail)

/-- The lkss to lkss_obfuscated derivation for survival_characteristic
records: truthy and not Unknown becomes Known, otherwise the value itself. -/
def applyLkssObfuscated (nt : String) (nr : NodeRecord) : NodeRecord :=
  if nt = NODE_TYPE_SURVIVAL_CHARACTERISTIC then
    match nr.lookup "lkss" with
    | some v =>
      setField nr "lkss_obfuscated"
        (if truthy v && !(v == Val.str "Unknown") then Val.str "Known" else v)
    | none => nr
  else nr

/-- The optional timing fields, in the dict order of the source. -/
def timingOptionalFieldNames : List String :=
  ["age_at_course_end", "age_at_course_start", "age_at_disease_phase", "course",
   "course_number", "disease_phase", "disease_phase_number", "timing_type",
   "year_at_disease_phase"]

/-- The optional person fields, in the dict order of the source. -/
def personOptionalFieldNames : List String := ["ethnicity", "race", "sex"]

/-- Copy a list of optional fields from a source record onto a partially
built index record; only present and truthy values are copied, converting
to number when the field is in the number field list. -/
def addOptionalFields (numberFields : List String) (r : SrcRecord) :
    List String → NodeRecord → Except String NodeRecord
  | [], acc => Except.ok acc
  | f :: fs, acc =>
    match r.fields.lookup f with
    | some v =>
      if truthy v then do
        let w ← if numberFields.contains f then to_num v else Except.ok v
        addOptionalFields numberFields r fs (acc ++ [(f, w)])
      else addOptionalFields numberFields r fs acc
    | none => addOptionalFields numberFields r fs acc

/-- Build one timing event from a timing source record. -/
def buildTiming (numberFields : List String) (r : SrcRecord) : Except String Timing :=
  addOptionalFields numberFields r timingOptionalFieldNames
    [("_timing_id", Val.str r.id), ("timing_id", Val.str r.submitter_id)]

/-- Build one person index record from a person source record. -/
def buildPerson (numberFields : List String) (r : SrcRecord) : Except String NodeRecord :=
  addOptionalFields numberFields r personOptionalFieldNames
    [("_person_id", Val.str r.id), ("person_id", Val.str r.submitter_id)]

/-- Append a timing to the per subject list map, creating the key on first
occurrence (dict insertion order preserved). -/
def addToListMap (m : List (String × List Timing)) (k : String) (t : Timing) :
    List (String × List Timing) :=
  appendEntry m k t

/-- Process the timing records of one project into the subject indexed map;
each timing is replicated once per associated subject stub. -/
def addTimingRecords (numberFields : List String) :
    List SrcRecord → List (String × List Timing) →
    Except String (List (String × List Timing))
  | [], m => Except.ok m
  | r :: rs, m => do
    let t ← buildTiming numberFields r
    let m' := (r.subjects.getD []).foldl (fun acc stub => addToListMap acc stub.node_id t) m
    addTimingRecords numberFields rs m'

/-- A project record set: node type name mapped to its record list. -/
abbrev ProjectData := List (String × List SrcRecord)

/-- Embedding of transform.get_timings_by_subject_id over every project;
a project without a timing record list raises KeyError. -/
def get_timings_by_subject_id (numberFields : List String) :
    List (String × ProjectData) → List (String × List Timing) →
    Except String (List (String × List Timing))
  | [], m => Except.ok m
  | (_, proj) :: rest, m =>
    match proj.lookup "timing" with
    | none => Except.error "KeyError: timing"
    | some recs => do
      let m' ← addTimingRecords numberFields recs m
      get_timings_by_subject_id numberFields rest m'

/-- Replace or insert a person entry keyed by internal person id. -/
def setAssoc (m : List (String × NodeRecord)) (k : String) (v : NodeRecord) :
    List (String × NodeRecord) :=
  setEntry m k v

/-- Process the person records of one project into the person indexed map. -/
def addPersonRecords (numberFields : List String) :
    List SrcRecord → List (String × NodeRecord) →
    Except String (List (String × NodeRecord))
  | [], m => Except.ok m
  | r :: rs, m => do
    let p ← buildPerson numberFields r
    addPersonRecords numberFields rs (setAssoc m r.id p)

/-- Embedding of transform.get_persons_by_person_id over every project;
a project without a person record list raises KeyError. -/
def get_persons_by_person_id (numberFields : List String) :
    List (String × ProjectData) → List (String × NodeRecord) →
    Except String (List (String × NodeRecord))
  | [], m => Except.ok m
  | (_, proj) :: rest, m =>
    match proj.lookup NODE_TYPE_PERSON with
    | none => Except.error "KeyError: person"
    | some recs => do
      let m' ← addPersonRecords numberFields recs m
      get_persons_by_person_id numberFields rest m'

/-- Embedding of transform.find_record_by_id: the unique match, none when
there are zero or several matches. -/
def find_record_by_id (idv : String) (idField : String) (records : List Timing) :
    Option Timing :=
  let ms := records.filter (fun r => r.lookup idField == some (Val.str idv))
  if ms.length == 1 then ms.head? else none

/-- The fixed timing field set copied onto a record, in source order. -/
def timingFieldNames : List String :=
  ["_timing_id", "age_at_course_end", "age_at_course_start", "age_at_disease_phase",
   "course", "course_number", "disease_phase", "disease_phase_number", "timing_id",
   "timing_type", "year_at_disease_phase"]

/-- Copy the listed timing fields that are present and truthy on the timing
event onto the node record. -/
def setTimingFieldsAux (te : Timing) : List String → NodeRecord → NodeRecord
  | [], acc => acc
  | f :: fs, acc =>
    setTimingFieldsAux te fs
      (match te.lookup f with
       | some v => if truthy v then setField acc f v else acc
       | none => acc)

/-- Embedding of transform.set_timing_fields. -/
def set_timing_fields (nr : NodeRecord) (te : Timing) : NodeRecord :=
  setTimingFieldsAux te timingFieldNames nr

/-- Whether the pattern char list occurs at the start of the other list. -/
def listStartsWith : List Char → List Char → Bool
  | [], _ => true
  | _ :: _, [] => false
  | p :: ps, x :: xs => p == x && listStartsWith ps xs

/-- Python substring containment test over char lists. -/
def listHasSub (pat : List Char) : List Char → Bool
  | [] => pat.isEmpty
  | x :: xs => listStartsWith pat (x :: xs) || listHasSub pat xs

/-- Embedding of transform.has_timing_association: whether the node type
declares a timings link; an unknown node type raises. -/
def has_timing_association (dict : List (String × NodeDef)) (nt : String) :
    Except String Bool :=
  match dict.lookup nt with
  | none => Except.error "RuntimeError: node type not found in data dictionary"
  | some d => Except.ok (d.links.contains "timings")

/-- The survival characteristic sort key: (age_at_lkss present, value or
zero).  The source compares Python tuples; records whose present value is
not numeric would raise there and are outside the model. -/
def scSortKey (r : SrcRecord) : Nat × Int :=
  ((if (r.fields.lookup "age_at_lkss").isSome then 1 else 0),
   (match r.fields.lookup "age_at_lkss" with
    | some (Val.num n) => n
    | _ => 0))

/-- Lexicographic order on sort keys. -/
def leKey (x y : Nat × Int) : Prop := x.1 < y.1 ∨ (x.1 = y.1 ∧ x.2 ≤ y.2)

instance (x y : Nat × Int) : Decidable (leKey x y) := by
  unfold leKey; infer_instance

/-- The descending comparison used when sorting a subject group: a may come
before b when the key of b is at most the key of a.  Inserting with this
relation reproduces the stable descending order of the Python sorted call. -/
def scKeyGE (a b : SrcRecord) : Prop := leKey (scSortKey b) (scSortKey a)

instance : DecidableRel scKeyGE := fun a b => by unfold scKeyGE; infer_instance

instance : IsTotal SrcRecord scKeyGE :=
  ⟨by intro a b; unfold scKeyGE leKey; omega⟩

instance : IsTrans SrcRecord scKeyGE :=
  ⟨by intro a b c hab hbc; unfold scKeyGE leKey at *; omega⟩

/-- The per group descending stable sort of survival characteristic
records. -/
def sortSurvivalGroup (g : List SrcRecord) : List SrcRecord :=
  List.insertionSort scKeyGE g

/-- Whether a record carries lkss with value Dead. -/
def isDeadRecord (r : SrcRecord) : Bool :=
  r.fields.lookup "lkss" == some (Val.str "Dead")

/-- Select the preferred record of one subject group: the first Dead record
in descending sort order when one exists, otherwise the first record. -/
def selectPreferredSurvival (g : List SrcRecord) : Option SrcRecord :=
  match (sortSurvivalGroup g).find? isDeadRecord with
  | some d => some d
  | none => (sortSurvivalGroup g).head?

/-- Append a record to the per subject group map, creating the group on
first occurrence (dict insertion order preserved). -/
def addToGroups (gs : List (String × List SrcRecord)) (k : String) (r : SrcRecord) :
    List (String × List SrcRecord) :=
  appendEntry gs k r

/-- Add one validated record under each of its subject stubs, raising on a
missing or blank subject submitter id. -/
def addRecordToGroups (r : SrcRecord) :
    List Stub → List (String × List SrcRecord) →
    Except String (List (String × List SrcRecord))
  | [], gs => Except.ok gs
  | stub :: rest, gs =>
    if stub.submitter_id = "" then
      Except.error "RuntimeError: subject submitter_id missing or invalid"
    else addRecordToGroups r rest (addToGroups gs stub.submitter_id r)

/-- Validate every record and group records by subject submitter id;
a wrong type or a missing or empty subject list raises. -/
def groupSurvivalCharacteristics :
    List SrcRecord → List (String × List SrcRecord) →
    Except String (List (String × List SrcRecord))
  | [], gs => Except.ok gs
  | r :: rs, gs =>
    if r.typ ≠ some NODE_TYPE_SURVIVAL_CHARACTERISTIC then
      Except.error "TypeError: unexpected type"
    else
      match r.subjects with
      | none => Except.error "RuntimeError: subjects missing or empty"
      | some [] => Except.error "RuntimeError: subjects missing or empty"
      | some stubs => do
        let gs' ← addRecordToGroups r stubs gs
        groupSurvivalCharacteristics rs gs'

/-- Emit the selected representative of each group, in group creation
order. -/
def flattenGroups : List (String × List SrcRecord) → List SrcRecord
  | [] => []
  | (_, g) :: rest => (selectPreferredSurvival g).toList ++ flattenGroups rest

/-- Embedding of transform.sort_and_flatten_survival_characteristics. -/
def sort_and_flatten_survival_characteristics (rs : List SrcRecord) :
    Except String (List SrcRecord) := do
  let gs ← groupSurvivalCharacteristics rs []
  Except.ok (flattenGroups gs)

/-- An entry of the problematic records sink; the source list is
heterogeneous (output records, source records, partially built subjects). -/
inductive ProbEntry where
  | outRec : NodeRecord → ProbEntry
  | srcRec : SrcRecord → ProbEntry
  | subjRec : Subject → ProbEntry
deriving DecidableEq

/-- The mutable state of generate_subject_json: the subject map (keyed by
subject submitter id, insertion ordered) and the problematic records sink. -/
structure GenState where
  subjects : List (String × Subject)
  probs : List ProbEntry
deriving DecidableEq

/-- Append an output record to the pluralized child collection of a subject,
creating the collection on first occurrence. -/
def addChildToSubject (s : Subject) (coll : String) (nr : NodeRecord) : Subject :=
  { s with children := appendEntry s.children coll nr }

/-- Replace the subject stored under a key of the subject map (the source
mutates the shared subject object in place). -/
def updateSubjects (m : List (String × Subject)) (k : String) (s : Subject) :
    List (String × Subject) :=
  updateEntry m k s

/-- The run wide context of a transform invocation: data dictionary, field
rule table, suppression configuration and the two association indexes
(process wide globals in the source, passed explicitly here). -/
structure Env where
  dict : List (String × NodeDef)
  rules : List (String × List (String × FieldSpec))
  cfg : List (String × SuppressionRule)
  persons : List (String × NodeRecord)
  timings : List (String × List Timing)

/-- The body of the per subject stub loop in populate_node_record: resolve
the subject (recording the record as problematic and skipping linkage when
missing), flag a record with several timing references as problematic
without enriching it, otherwise resolve and copy the single timing, then
append the record to the pluralized child collection and set the
biospecimen status flag when applicable. -/
def attachStub (env : Env) (nt : String) (r : SrcRecord)
    (acc : NodeRecord × GenState) (stub : Stub) :
    Except String (NodeRecord × GenState) :=
  match acc.2.subjects.lookup stub.submitter_id with
  | none =>
    Except.ok (acc.1, { acc.2 with probs := acc.2.probs ++ [ProbEntry.outRec acc.1] })
  | some subj => do
    let _ ← has_timing_association env.dict nt
    let step ←
      (match r.timings with
       | none => Except.ok (acc.1, acc.2)
       | some ts =>
         if ts.length > 1 then
           Except.ok (acc.1, { acc.2 with probs := acc.2.probs ++ [ProbEntry.srcRec r] })
         else
           match env.timings.lookup stub.node_id with
           | none => Except.error "KeyError: no timing list for subject node id"
           | some subjTimings =>
             Except.ok (ts.foldl (fun cur t =>
                 match find_record_by_id t.node_id "_timing_id" subjTimings with
                 | some te => set_timing_fields cur te
                 | none => cur) acc.1, acc.2))
    let subj2 := addChildToSubject subj (get_pluralized_node_type_name nt) step.1
    let bioFields := setField subj2.fields BIOSPECIMEN_STATUS_FIELD (Val.str BIOSPECIMEN_STATUS_PRESENT)
    let subj3 :=
      if nt = NODE_TYPE_BIOSPECIMEN then { subj2 with fields := bioFields } else subj2
    Except.ok (step.1, { step.2 with subjects := updateSubjects step.2.subjects stub.submitter_id subj3 })

/-- Fold attachStub over the subject stubs of the record. -/
def attachStubs (env : Env) (nt : String) (r : SrcRecord) :
    List Stub → NodeRecord × GenState → Except String (NodeRecord × GenState)
  | [], acc => Except.ok acc
  | stub :: rest, acc => do
    let acc' ← attachStub env nt r acc stub
    attachStubs env nt r rest acc'

/-- Embedding of transform.populate_node_record on its full path (the base
fields only path is inlined in create_subject_record below): an unmodeled
node type is silently skipped, otherwise the field loop runs, lkss is
obfuscated, and the record is attached under every subject stub. -/
def populate_node_record (env : Env) (nt : String) (r : SrcRecord) (st : GenState) :
    Except String (Option NodeRecord × GenState) :=
  match env.rules.lookup nt with
  | none => Except.ok (none, st)
  | some ntRules => do
    let base ← populate_fields env.cfg nt r (some st.subjects) ntRules
    let base2 := applyLkssObfuscated nt base
    match r.subjects with
    | none => Except.error "KeyError: subjects"
    | some stubs => do
      let res ← attachStubs env nt r stubs (base2, st)
      Except.ok (some res.1, res.2)

/-- The person merge and auth path construction of create_subject_record:
for each associated person (at most one in practice) deep copy the person
record onto the subject, split project_id on dashes into exactly a program
and a project (any other shape raises, as the two element tuple unpacking
does in the source), and derive auth_resource_path. -/
def mergePersonAndAuth (personsMap : List (String × NodeRecord)) (submitterId : String) :
    List Stub → NodeRecord → Except String NodeRecord
  | [], fields0 => Except.ok fields0
  | p :: rest, fields0 =>
    match personsMap.lookup p.node_id with
    | none => Except.error "KeyError: person node id not found"
    | some personRec =>
      let merged := mergeFields fields0 personRec
      match merged.lookup "project_id" with
      | some (Val.str pid) =>
        match pySplit pid '-' with
        | [prog, proj] =>
          match merged.lookup "person_id" with
          | some (Val.str per) =>
            mergePersonAndAuth personsMap submitterId rest
              (setField merged "auth_resource_path"
                (Val.str ("/programs/" ++ prog ++ "/projects/" ++ proj ++
                  "/persons/" ++ per ++ "/subjects/" ++ submitterId)))
          | _ => Except.error "TypeError: person_id missing or not a string"
        | _ => Except.error "ValueError: project_id does not split into two values"
      | _ => Except.error "KeyError: project_id missing or not a string"

/-- The temporary year_at_disease_phase patch: take the value of the last
timing of the subject that carries a truthy year_at_disease_phase. -/
def applyYearPatch (timings : List (String × List Timing)) (subjectId : String)
    (fields0 : NodeRecord) : NodeRecord :=
  match timings.lookup subjectId with
  | none => fields0
  | some ts =>
    match (ts.filter (fun t =>
      match t.lookup "year_at_disease_phase" with
      | some v => truthy v
      | none => false)).getLast? with
    | none => fields0
    | some t =>
      setField fields0 "year_at_disease_phase" ((t.lookup "year_at_disease_phase").getD Val.null)

/-- Embedding of transform.create_subject_record: base field population
(with no subject map, as the source passes None there), then person merge
and auth path, then the year patch; several associated persons make the
subject problematic and yield no subject. -/
def create_subject_record (env : Env) (r : SrcRecord) :
    Except String (Option Subject × List ProbEntry) :=
  match env.rules.lookup NODE_TYPE_SUBJECT with
  | none => Except.error "TypeError: subject has no field rules"
  | some subjectRules => do
    let base ← populate_fields env.cfg NODE_TYPE_SUBJECT r none subjectRules
    let base2 := applyLkssObfuscated NODE_TYPE_SUBJECT base
    match r.persons with
    | some ps =>
      if ps.length > 1 then
        let s0 : Subject :=
          ⟨r.id, r.submitter_id, base2, []⟩
        Except.ok (none, [ProbEntry.subjRec s0])
      else do
        let merged ← mergePersonAndAuth env.persons r.submitter_id ps base2
        let s1 : Subject :=
          ⟨r.id, r.submitter_id, applyYearPatch env.timings r.id merged, []⟩
        Except.ok (some s1, [])
    | none =>
      let s2 : Subject :=
        ⟨r.id, r.submitter_id, applyYearPatch env.timings r.id base2, []⟩
      Except.ok (some s2, [])

/-- One record step of generate_subject_json: the subject branch creates
and inserts the subject, raising on a duplicate submitter id; the general
branch skips a record without a subjects key, flags a record with several
subject stubs as problematic, and otherwise populates it. -/
def processRecord (env : Env) (nt : String) (st : GenState) (r : SrcRecord) :
    Except String GenState :=
  if nt = NODE_TYPE_SUBJECT then do
    let res ← create_subject_record env r
    let st2 : GenState := { st with probs := st.probs ++ res.2 }
    match res.1 with
    | none => Except.ok st2
    | some s =>
      if (st2.subjects.lookup s.submitter_id).isSome then
        Except.error ("RuntimeError: duplicate subject submitter id found: " ++ s.submitter_id)
      else Except.ok { st2 with subjects := st2.subjects ++ [(s.submitter_id, s)] }
  else
    match r.subjects with
    | none => Except.ok st
    | some stubs =>
      if stubs.length > 1 then
        Except.ok { st with probs := st.probs ++ [ProbEntry.srcRec r] }
      else do
        let res ← populate_node_record env nt r st
        Except.ok res.2

/-- Fold processRecord over the record list of one node type. -/
def processRecords (env : Env) (nt : String) :
    GenState → List SrcRecord → Except String GenState
  | st, [] => Except.ok st
  | st, r :: rs => do
    let st' ← processRecord env nt st r
    processRecords env nt st' rs

/-- Process every configured node type of one project, skipping the types
absent from the record set and pre flattening survival characteristics. -/
def processNodeTypes (env : Env) (proj : ProjectData) :
    GenState → List String → Except String GenState
  | st, [] => Except.ok st
  | st, nt :: rest =>
    match proj.lookup nt with
    | none => processNodeTypes env proj st rest
    | some recs => do
      let recs' ←
        if nt = NODE_TYPE_SURVIVAL_CHARACTERISTIC then
          sort_and_flatten_survival_characteristics recs
        else Except.ok recs
      let st' ← processRecords env nt st recs'
      processNodeTypes env proj st' rest

/-- Process every project in order. -/
def processProjects (env : Env) (nodeTypes : List String) :
    GenState → List (String × ProjectData) → Except String GenState
  | st, [] => Except.ok st
  | st, (_, proj) :: rest => do
    let st' ← processNodeTypes env proj st nodeTypes
    processProjects env nodeTypes st' rest

/-- Embedding of transform.generate_subject_json: drop every node type whose
name contains person as a substring, build the timing and person indexes,
then drive all projects and node types. -/
def generate_subject_json (dict : List (String × NodeDef))
    (rules : List (String × List (String × FieldSpec)))
    (cfg : List (String × SuppressionRule)) (numberFields : List String)
    (data : List (String × ProjectData)) (nodeTypes : List String) :
    Except String GenState := do
  let nodeTypes' := nodeTypes.filter (fun t => !listHasSub NODE_TYPE_PERSON.data t.data)
  let timings ← get_timings_by_subject_id numberFields data []
  let persons ← get_persons_by_person_id numberFields data []
  processProjects
    { dict := dict, rules := rules, cfg := cfg, persons := persons, timings := timings }
    nodeTypes' { subjects := [], probs := [] } data

/-! Concrete inputs used by the verification below. -/

/-- A plain string field rule. -/
def specStr : FieldSpec := ⟨false, false, false⟩

/-- A numeric field rule with the unset_if_null retraction. -/
def specNumUnset : FieldSpec := ⟨true, true, false⟩

/-- The rule table row of the subject type used in the examples. -/
def rulesSubjectEx : List (String × FieldSpec) := [("project_id", specStr)]

/-- A survival characteristic source record builder for the examples. -/
def mkSurvivalRecord (i : String) (age : Option Int) (lkss : Option String)
    (stub : Stub) : SrcRecord :=
  ⟨i, "sc" ++ i, some "survival_characteristic",
    (match age with | some n => [("age_at_lkss", Val.num n)] | none => []) ++
      (match lkss with | some s => [("lkss", Val.str s)] | none => []),
    some [stub], none, none⟩

def scEx10 : SrcRecord := mkSurvivalRecord "a" (some 10) (some "Alive") ⟨"N1", "S1"⟩

def scEx20 : SrcRecord := mkSurvivalRecord "b" (some 20) (some "Dead") ⟨"N1", "S1"⟩

def scEx30 : SrcRecord := mkSurvivalRecord "c" (some 30) (some "Alive") ⟨"N1", "S1"⟩

def scFlatA : SrcRecord := mkSurvivalRecord "x1" (some 4) (some "Alive") ⟨"Na", "Sa"⟩

def scFlatB : SrcRecord := mkSurvivalRecord "x2" none none ⟨"Nb", "Sb"⟩

/-- The environment for the subject pass examples. -/
def envSubjEx : Env := ⟨[], [("subject", rulesSubjectEx)], [], [], []⟩

def subjRecA : SrcRecord :=
  ⟨"IA", "S1", some "subject", [("project_id", Val.str "p-1")], none, none, none⟩

def subjRecB : SrcRecord :=
  ⟨"IB", "S2", some "subject", [("project_id", Val.str "p-1")], none, none, none⟩

def subjRecDup : SrcRecord :=
  ⟨"IC", "S1", some "subject", [("project_id", Val.str "p-1")], none, none, none⟩

/-- Rule table row for the C3 example: one retractable number field, one
plain string field. -/
def rulesC3ex : List (String × FieldSpec) :=
  [("age_at_lkss", specNumUnset), ("lkss", specStr)]

/-- A source record carrying neither field of rulesC3ex. -/
def recC3ex : SrcRecord :=
  ⟨"SC1", "sc1", some "survival_characteristic", [("other", Val.str "v")], none, none, none⟩

/-- The example suppression rule: treatment arm only for INRG consortium. -/
def ruleTreatmentArm : SuppressionRule := ⟨"subject.consortium", ["INRG"], []⟩

/-- A suppression rule whose allow list is the literal wildcard. -/
def ruleAllowAll : SuppressionRule := ⟨"subject.consortium", ["*"], []⟩

def cfgC4ex : List (String × SuppressionRule) := [("study.treatment_arm", ruleTreatmentArm)]

def subjC4ex : Subject := ⟨"N1", "S1", [("consortium", Val.str "INRG")], []⟩

def recStudyEx : SrcRecord :=
  ⟨"ST1", "st1", some "study", [("treatment_arm", Val.str "armA")],
    some [⟨"N1", "S1"⟩], none, none⟩

/-- A two rule configuration whose first key does not match the queried
field owner type: the source then raises instead of applying the second
(exactly matching) rule. -/
def cfgC5ex : List (String × SuppressionRule) :=
  [("a.x", ruleTreatmentArm), ("t.x", ruleAllowAll)]

def recC5ex : SrcRecord := ⟨"R1", "r1", some "t", [], none, none, none⟩

/-- C6 example data: one project with one subject record and one lab record
that has no subjects key at all. -/
def subjRecC6 : SrcRecord :=
  ⟨"SUBJ1", "S1", some "subject", [("project_id", Val.str "prog-001")], none, none, none⟩

def labRecC6 : SrcRecord :=
  ⟨"LAB1", "l1", some "lab", [("lab_method", Val.str "blood")], none, none, none⟩

def dataC6 : List (String × ProjectData) :=
  [("proj1", [("timing", []), ("person", []), ("subject", [subjRecC6]), ("lab", [labRecC6])])]

/-- A non subject record with two subject stubs, for the amended C6. -/
def labRecTwoSubjects : SrcRecord :=
  ⟨"LAB2", "l2", some "lab", [("lab_method", Val.str "urine")],
    some [⟨"N1", "S1"⟩, ⟨"N2", "S2"⟩], none, none⟩

/-- C7 example environment: the lab type has a timings link and one timing
event indexed under subject node N1. -/
def envC7ex : Env :=
  ⟨[("lab", ⟨["timings"]⟩)], [("lab", [("lab_method", specStr)])], [], [],
   [("N1", [[("_timing_id", Val.str "T1"), ("timing_id", Val.str "t1"),
     ("timing_type", Val.str "Initial")]])]⟩

def subjC7ex : Subject := ⟨"N1", "S1", [], []⟩

def stC7ex : GenState := ⟨[("S1", subjC7ex)], []⟩

/-- A lab record with two timing references, the first of which resolves. -/
def recC7ex : SrcRecord :=
  ⟨"LAB1", "l1", some "lab", [("lab_method", Val.str "blood")],
    some [⟨"N1", "S1"⟩], none, some [⟨"T1", "t1"⟩, ⟨"T2", "t2"⟩]⟩

/-- C9 example environment: one resolvable person record. -/
def envC9ex : Env :=
  ⟨[], [("subject", rulesSubjectEx)], [],
   [("P1", [("_person_id", Val.str "P1"), ("person_id", Val.str "PS1")])], []⟩

def recC9 (pid : String) : SrcRecord :=
  ⟨"SUBJ1", "S1", some "subject", [("project_id", Val.str pid)], none,
    some [⟨"P1", "p1"⟩], none⟩

/-- C10 example: a timing record whose age_at_course_start is the number 0
(falsy in Python) next to a truthy timing_type. -/
def recC10ex : SrcRecord :=
  ⟨"T1", "t1", some "timing",
    [("age_at_course_start", Val.num 0), ("timing_type", Val.str "Init")],
    some [⟨"N1", "S1"⟩], none, none⟩

/-- The timing event buildTiming produces from recC10ex. -/
def timingC10ex : Timing :=
  [("_timing_id", Val.str "T1"), ("timing_id", Val.str "t1"), ("timing_type", Val.str "Init")]

/-- A timing event carrying a falsy course_number, for the set_timing_fields
half of C10. -/
def teC10ex : Timing := [("course_number", Val.num 0), ("timing_type", Val.str "Init")]

/-- The subject submitter ids of the subjects successfully created from a
record list (create returned a subject, as opposed to a problem entry). -/
def createdSubjectIds (env : Env) (rs : List SrcRecord) : List String :=
  rs.filterMap (fun r =>
    match create_subject_record env r with
    | Except.ok (some s, _) => some s.submitter_id
    | _ => none)

/-- The subject submitter id of the first subject stub of a record (used to
phrase distinctness over already flattened survival inputs). -/
def recSid (r : SrcRecord) : String :=
  match r.subjects with
  | some (stub :: _) => stub.submitter_id
  | _ => ""

/-! Shared association list lemmas. -/

theorem lookup_cons_self {α : Type} (k : String) (v : α) (l : List (String × α)) :
    ((k, v) :: l).lookup k = some v := by
  simp [List.lookup]

theorem lookup_cons_ne {α : Type} (k a : String) (v : α) (l : List (String × α))
    (h : k ≠ a) : ((a, v) :: l).lookup k = l.lookup k := by
  have hb : (k == a) = false := beq_eq_false_iff_ne.mpr h
  simp [List.lookup, hb]

theorem lookup_setEntry_self {α : Type} (l : List (String × α)) (k : String) (v : α) :
    (setEntry l k v).lookup k = some v := by
  induction l with
  | nil => simp [setEntry, lookup_cons_self]
  | cons p rest ih =>
    by_cases h : p.1 = k
    · simp [setEntry, h, lookup_cons_self]
    · have h2 : k ≠ p.1 := fun hc => h hc.symm
      simp [setEntry, h]
      rw [lookup_cons_ne _ _ _ _ h2]
      exact ih

theorem lookup_setEntry_ne {α : Type} (l : List (String × α)) (k k2 : String) (v : α)
    (hne : k2 ≠ k) : (setEntry l k v).lookup k2 = l.lookup k2 := by
  induction l with
  | nil =>
    simp only [setEntry]
    exact lookup_cons_ne _ _ _ _ hne
  | cons p rest ih =>
    by_cases h : p.1 = k
    · subst h
      simp [setEntry]
      rw [lookup_cons_ne _ _ _ _ hne, lookup_cons_ne _ _ _ _ hne]
    · simp [setEntry, h]
      rcases eq_or_ne k2 p.1 with heq | hne2
      · subst heq
        rw [show ((p.1, p.2) :: setEntry rest k v) = p :: setEntry rest k v by rfl,
          show ((p.1, p.2) :: rest) = p :: rest by rfl]
        cases p with
        | mk a b => rw [lookup_cons_self, lookup_cons_self]
      · cases p with
        | mk a b =>
          rw [lookup_cons_ne _ _ _ _ hne2, lookup_cons_ne _ _ _ _ hne2]
          exact ih

theorem lookup_append_single_ne {α : Type} (l : List (String × α)) (g k : String)
    (v : α) (hne : k ≠ g) : (l ++ [(g, v)]).lookup k = l.lookup k := by
  induction l with
  | nil =>
    simp only [List.nil_append]
    exact lookup_cons_ne _ _ _ _ hne
  | cons p rest ih =>
    cases p with
    | mk a b =>
      rcases eq_or_ne k a with heq | hne2
      · subst heq
        simp [lookup_cons_self]
      · rw [List.cons_append, lookup_cons_ne _ _ _ _ hne2, lookup_cons_ne _ _ _ _ hne2]
        exact ih

theorem lookup_isSome_iff_mem {α : Type} (l : List (String × α)) (k : String) :
    (l.lookup k).isSome = true ↔ k ∈ l.map Prod.fst := by
  induction l with
  | nil => simp [List.lookup]
  | cons p rest ih =>
    cases p with
    | mk a b =>
      rcases eq_or_ne k a with heq | hne
      · subst heq
        simp [lookup_cons_self]
      · rw [lookup_cons_ne _ _ _ _ hne]
        simp [hne, ih]

/-! Reduction lemmas for the Except monad binds produced by do notation. -/

theorem except_bind_ok {ε α β : Type} (a : α) (k : α → Except ε β) :
    (Except.ok a >>= k) = k a := rfl

theorem except_bind_error {ε α β : Type} (e : ε) (k : α → Except ε β) :
    ((Except.error e : Except ε α) >>= k) = Except.error e := rfl

/-! Claim C10 support lemmas. -/

theorem addOptionalFields_lookup_skip (nums : List String) (r : SrcRecord) (f : String)
    (hv : r.fields.lookup f = none ∨ ∃ v, r.fields.lookup f = some v ∧ truthy v = false) :
    ∀ (fs : List String) (acc t : NodeRecord),
      addOptionalFields nums r fs acc = Except.ok t → t.lookup f = acc.lookup f := by
  intro fs
  induction fs with
  | nil =>
    intro acc t h
    simp [addOptionalFields] at h
    rw [h]
  | cons g gs ih =>
    intro acc t h
    rw [addOptionalFields] at h
    split at h
    · next v hg =>
      split at h
      · next htr =>
        have hgf : g ≠ f := by
          intro hc
          subst hc
          rcases hv with hnone | ⟨w, hw, hwf⟩
          · rw [hg] at hnone; cases hnone
          · rw [hg] at hw; cases hw; rw [htr] at hwf; cases hwf
        split at h
        · rcases hn : to_num v with e | w
          · rw [hn, except_bind_error] at h; cases h
          · rw [hn, except_bind_ok] at h
            have := ih (acc ++ [(g, w)]) t h
            rw [this, lookup_append_single_ne _ _ _ _ (fun hc => hgf hc.symm)]
        · rw [except_bind_ok] at h
          have := ih (acc ++ [(g, v)]) t h
          rw [this, lookup_append_single_ne _ _ _ _ (fun hc => hgf hc.symm)]
      · next htr =>
        exact ih acc t h
    · next hg =>
      exact ih acc t h

theorem setTimingFieldsAux_lookup_skip (te : Timing) (g : String)
    (hv : te.lookup g = none ∨ ∃ w, te.lookup g = some w ∧ truthy w = false) :
    ∀ (fs : List String) (acc : NodeRecord),
      (setTimingFieldsAux te fs acc).lookup g = acc.lookup g := by
  intro fs
  induction fs with
  | nil => intro acc; rfl
  | cons f fs ih =>
    intro acc
    rw [setTimingFieldsAux]
    split
    · next w hf =>
      split
      · next htr =>
        have hfg : f ≠ g := by
          intro hc
          subst hc
          rcases hv with hnone | ⟨u, hu, huf⟩
          · rw [hf] at hnone; cases hnone
          · rw [hf] at hu; cases hu; rw [htr] at huf; cases huf
        rw [ih (setField acc f w), setField,
          lookup_setEntry_ne _ _ _ _ (fun hc => hfg hc.symm)]
      · next htr =>
        exact ih acc
    · next hf =>
      exact ih acc

/-- C10: every optional timing field is copied into a timing event only when
the source value is present and truthy, so a falsy value such as the number
zero or the empty string is silently omitted; and set_timing_fields likewise
copies only present, truthy timing event values onto a record, leaving the
record unchanged at any absent or falsy field. -/
theorem timing_zero_values_omitted (nums : List String) (r : SrcRecord) (t : Timing)
    (f : String) (hf : f ∈ timingOptionalFieldNames)
    (hv : r.fields.lookup f = none ∨ ∃ v, r.fields.lookup f = some v ∧ truthy v = false)
    (hbt : buildTiming nums r = Except.ok t) :
    t.lookup f = none ∧
      ∀ (nr te : NodeRecord) (g : String),
        (te.lookup g = none ∨ ∃ w, te.lookup g = some w ∧ truthy w = false) →
        (set_timing_fields nr te).lookup g = nr.lookup g := by
  constructor
  · have h1 : f ≠ "_timing_id" := by
      intro hc; subst hc; revert hf; decide
    have h2 : f ≠ "timing_id" := by
      intro hc; subst hc; revert hf; decide
    have hbase := addOptionalFields_lookup_skip nums r f hv timingOptionalFieldNames
      [("_timing_id", Val.str r.id), ("timing_id", Val.str r.submitter_id)] t hbt
    rw [hbase, lookup_cons_ne _ _ _ _ h1, lookup_cons_ne _ _ _ _ h2]
    rfl
  · intro nr te g hg
    exact setTimingFieldsAux_lookup_skip te g hg timingFieldNames nr

/-- C10 witness: a timing source record with age_at_course_start 0 yields a
timing event without that field, and copying a timing event with a falsy
course_number onto a record leaves the record without it. -/
theorem timing_zero_values_omitted_witness :
    timingC10ex.lookup "age_at_course_start" = none ∧
      (set_timing_fields [("x", Val.str "y")] teC10ex).lookup "course_number" =
        ([("x", Val.str "y")] : NodeRecord).lookup "course_number" := by
  have h := timing_zero_values_omitted [] recC10ex timingC10ex "age_at_course_start"
    (by decide) (Or.inr ⟨Val.num 0, by decide, by decide⟩) (by decide)
  exact ⟨h.1, h.2 [("x", Val.str "y")] teC10ex "course_number"
    (Or.inr ⟨Val.num 0, by decide, by decide⟩)⟩

/-! Claim C3 support lemmas. -/

theorem lookup_eq_none_of_not_mem {α : Type} (l : List (String × α)) (k : String)
    (h : k ∉ l.map Prod.fst) : l.lookup k = none := by
  rcases hl : l.lookup k with _ | v
  · rfl
  · exfalso
    apply h
    rw [← lookup_isSome_iff_mem, hl]
    rfl

theorem populateFieldValue_nullcase (cfg : List (String × SuppressionRule)) (nt : String)
    (r : SrcRecord) (s : Option (List (String × Subject))) (f : String) (spec : FieldSpec)
    (hv : recordGetVal r f = none ∨ recordGetVal r f = some Val.null) :
    populateFieldValue cfg nt r s f spec =
      Except.ok (if spec.unset_if_null = true then some Val.null else none) := by
  rcases hv with h | h
  · rw [populateFieldValue, h]
    by_cases hu : spec.unset_if_null = true
    · simp [hu]
    · simp [hu]
  · rw [populateFieldValue, h]
    by_cases hu : spec.unset_if_null = true
    · simp [hu]
    · simp [hu]

theorem populate_fields_keys_subset (cfg : List (String × SuppressionRule)) (nt : String)
    (r : SrcRecord) (s : Option (List (String × Subject))) :
    ∀ (rules : List (String × FieldSpec)) (out : NodeRecord),
      populate_fields cfg nt r s rules = Except.ok out →
      ∀ k, k ∈ out.map Prod.fst → k ∈ rules.map Prod.fst := by
  intro rules
  induction rules with
  | nil =>
    intro out h k hk
    simp [populate_fields] at h
    subst h
    cases hk
  | cons p rest ih =>
    intro out h k hk
    rw [populate_fields] at h
    rcases hpv : populateFieldValue cfg nt r s p.1 p.2 with e | v?
    · rw [hpv, except_bind_error] at h; cases h
    · rw [hpv, except_bind_ok] at h
      rcases hpf : populate_fields cfg nt r s rest with e | tail
      · rw [hpf, except_bind_error] at h; cases h
      · rw [hpf, except_bind_ok] at h
        cases h
        rcases v? with _ | v
        · exact List.mem_cons_of_mem _ (ih tail hpf k hk)
        · have hk2 : k ∈ p.1 :: tail.map Prod.fst := hk
          rcases List.mem_cons.mp hk2 with hk3 | hk3
          · rw [hk3]
            exact List.mem_cons_self _ _
          · exact List.mem_cons_of_mem _ (ih tail hpf k hk3)

/-- C3: for every field of the rule table of a node type, when the field is
absent from the source record or carries an explicit null, populate_node_record
writes an explicit null onto the output record exactly when the rule demands
unset_if_null, and omits the key entirely otherwise. -/
theorem unset_if_null_fields_retracted (cfg : List (String × SuppressionRule))
    (nt : String) (r : SrcRecord) (s : Option (List (String × Subject)))
    (rules : List (String × FieldSpec)) (out : NodeRecord) (f : String) (spec : FieldSpec)
    (hnd : (rules.map Prod.fst).Nodup) (hmem : (f, spec) ∈ rules)
    (hv : recordGetVal r f = none ∨ recordGetVal r f = some Val.null)
    (hok : populate_fields cfg nt r s rules = Except.ok out) :
    (spec.unset_if_null = true → out.lookup f = some Val.null) ∧
      (spec.unset_if_null = false → f ∉ out.map Prod.fst) := by
  induction rules generalizing out with
  | nil => cases hmem
  | cons p rest ih =>
    rw [populate_fields] at hok
    rcases hpv : populateFieldValue cfg nt r s p.1 p.2 with e | v?
    · rw [hpv, except_bind_error] at hok; cases hok
    · rw [hpv, except_bind_ok] at hok
      rcases hpf : populate_fields cfg nt r s rest with e | tail
      · rw [hpf, except_bind_error] at hok; cases hok
      · rw [hpf, except_bind_ok] at hok
        cases hok
        rcases List.mem_cons.mp hmem with heq | hrest
        · have hf : p.1 = f := congrArg Prod.fst heq.symm
          have hs : p.2 = spec := congrArg Prod.snd heq.symm
          subst hf
          subst hs
          have hnotail : p.1 ∉ rest.map Prod.fst := by
            rw [List.map_cons] at hnd
            exact (List.nodup_cons.mp hnd).1
          have htail_nomem : p.1 ∉ tail.map Prod.fst := by
            intro hc
            exact hnotail (populate_fields_keys_subset cfg nt r s rest tail hpf p.1 hc)
          rw [populateFieldValue_nullcase cfg nt r s p.1 p.2 hv] at hpv
          have hpv2 := hpv.symm
          injection hpv2 with hpv3
          constructor
          · intro hu
            rw [hu, if_pos rfl] at hpv3
            rw [hpv3]
            exact lookup_cons_self _ _ _
          · intro hu
            rw [hu, if_neg (by simp)] at hpv3
            rw [hpv3]
            exact htail_nomem
        · have hnd' : (rest.map Prod.fst).Nodup := by
            rw [List.map_cons] at hnd
            exact (List.nodup_cons.mp hnd).2
          have hfp : f ≠ p.1 := by
            intro hc
            rw [List.map_cons] at hnd
            apply (List.nodup_cons.mp hnd).1
            rw [← hc]
            exact List.mem_map.mpr ⟨(f, spec), hrest, rfl⟩
          have hih := ih tail hnd' hrest hpf
          constructor
          · intro hu
            rcases v? with _ | v
            · exact hih.1 hu
            · show ((p.1, v) :: tail).lookup f = some Val.null
              rw [lookup_cons_ne _ _ _ _ hfp]
              exact hih.1 hu
          · intro hu
            rcases v? with _ | v
            · exact hih.2 hu
            · have : f ∉ p.1 :: tail.map Prod.fst := by
                intro hc
                rcases List.mem_cons.mp hc with hc1 | hc1
                · exact hfp hc1
                · exact hih.2 hu hc1
              exact this

/-- C3 witness: with a retractable number field and a plain string field both
absent from the source, the transform writes an explicit null for the
retractable field and omits the plain field. -/
theorem unset_if_null_fields_retracted_witness :
    (([("age_at_lkss", Val.null)] : NodeRecord).lookup "age_at_lkss" = some Val.null) ∧
      ("lkss" ∉ ([("age_at_lkss", Val.null)] : NodeRecord).map Prod.fst) := by
  have h1 := unset_if_null_fields_retracted [] "survival_characteristic" recC3ex none
    rulesC3ex [("age_at_lkss", Val.null)] "age_at_lkss" specNumUnset
    (by decide) (by decide) (Or.inl (by decide)) (by decide)
  have h2 := unset_if_null_fields_retracted [] "survival_characteristic" recC3ex none
    rulesC3ex [("age_at_lkss", Val.null)] "lkss" specStr
    (by decide) (by decide) (Or.inl (by decide)) (by decide)
  exact ⟨h1.1 rfl, h2.2 rfl⟩

/-! Claims C4 and C5 support lemmas. -/

theorem canPopulate_first_rule_reduces (k : String) (ruleSpec : SuppressionRule)
    (rest : List (String × SuppressionRule)) (nt fn : String) (r : SrcRecord)
    (s : Option (List (String × Subject)))
    (hmatch : ruleKeyMatches ((k, ruleSpec) :: rest) nt fn = true)
    (hkf : (parseSuppressedKey k).2 = fn)
    (hkt : (parseSuppressedKey k).1 = nt ∨ (parseSuppressedKey k).1 = "*") :
    can_populate_node_record_field ((k, ruleSpec) :: rest) nt fn r s =
      canPopulateMatched ruleSpec nt r s := by
  rw [can_populate_node_record_field, hmatch]
  rcases hkt with h1 | h1
  · simp [hkf, h1]
  · simp [hkf, h1]

/-- C4: once the first configured rule key matches the queried node type and
field, a literal wildcard in the allow list short circuits to allow (before
any control value collection), a literal wildcard in the block list (with
none in the allow list) short circuits to deny, and otherwise for the
collected control values the allow list governs when non empty (permit iff
the values intersect it), else the block list governs when non empty
(permit iff the values avoid it), else population is allowed. -/
theorem suppression_allow_block_semantics (k : String) (ruleSpec : SuppressionRule)
    (rest : List (String × SuppressionRule)) (nt fn : String) (r : SrcRecord)
    (s : Option (List (String × Subject)))
    (hmatch : ruleKeyMatches ((k, ruleSpec) :: rest) nt fn = true)
    (hkf : (parseSuppressedKey k).2 = fn)
    (hkt : (parseSuppressedKey k).1 = nt ∨ (parseSuppressedKey k).1 = "*") :
    (ruleSpec.allowed.contains "*" = true →
      can_populate_node_record_field ((k, ruleSpec) :: rest) nt fn r s = Except.ok true) ∧
    (ruleSpec.allowed.contains "*" = false → ruleSpec.blocked.contains "*" = true →
      can_populate_node_record_field ((k, ruleSpec) :: rest) nt fn r s = Except.ok false) ∧
    (∀ vals, ruleSpec.allowed.contains "*" = false → ruleSpec.blocked.contains "*" = false →
      collectControlValues (parseControlType ruleSpec.control_field)
        (parseControlField ruleSpec.control_field) nt r s = Except.ok vals →
      (ruleSpec.allowed ≠ [] →
        can_populate_node_record_field ((k, ruleSpec) :: rest) nt fn r s =
          Except.ok (vals.any (fun v => ruleSpec.allowed.contains v))) ∧
      (ruleSpec.allowed = [] → ruleSpec.blocked ≠ [] →
        can_populate_node_record_field ((k, ruleSpec) :: rest) nt fn r s =
          Except.ok (vals.all (fun v => !ruleSpec.blocked.contains v))) ∧
      (ruleSpec.allowed = [] → ruleSpec.blocked = [] →
        can_populate_node_record_field ((k, ruleSpec) :: rest) nt fn r s =
          Except.ok true)) := by
  have hred := canPopulate_first_rule_reduces k ruleSpec rest nt fn r s hmatch hkf hkt
  refine ⟨?_, ?_, ?_⟩
  · intro ha
    rw [hred, canPopulateMatched, ha]
    simp
  · intro ha hb
    rw [hred, canPopulateMatched, ha, hb]
    simp
  · intro vals ha hb hc
    refine ⟨?_, ?_, ?_⟩
    · intro hne
      rw [hred, canPopulateMatched, ha, hb]
      simp only [Bool.false_eq_true, if_false]
      rw [hc, except_bind_ok]
      rcases hae : ruleSpec.allowed with _ | ⟨a, as⟩
      · exact absurd hae hne
      · rfl
    · intro hae hbne
      rw [hred, canPopulateMatched, ha, hb]
      simp only [Bool.false_eq_true, if_false]
      rw [hc, except_bind_ok, hae]
      rcases hbe : ruleSpec.blocked with _ | ⟨b, bs⟩
      · exact absurd hbe hbne
      · rfl
    · intro hae hbe
      rw [hred, canPopulateMatched, ha, hb]
      simp only [Bool.false_eq_true, if_false]
      rw [hc, except_bind_ok, hae, hbe]
      rfl

/-- C4 witness: the treatment arm rule with allow list INRG permits the
field on a study record whose subject has consortium INRG. -/
theorem suppression_allow_block_semantics_witness :
    can_populate_node_record_field cfgC4ex "study" "treatment_arm" recStudyEx
      (some [("S1", subjC4ex)]) = Except.ok true := by
  have hcfg : cfgC4ex = ("study.treatment_arm", ruleTreatmentArm) :: [] := rfl
  rw [hcfg]
  have h := suppression_allow_block_semantics "study.treatment_arm" ruleTreatmentArm []
    "study" "treatment_arm" recStudyEx (some [("S1", subjC4ex)]) (by decide) (by decide)
    (Or.inl (by decide))
  have h3 := (h.2.2 ["INRG"] (by decide) (by decide) (by decide)).1 (by decide)
  rw [h3]
  decide

/-- C5 counterexample: in a configuration with two rule keys where the
second key is the exact match for the query, the source applies the first
configured rule instead and raises a mismatch error, although the exactly
matching rule would permit the field; the claimed exact-first lookup order
does not hold for multi rule configurations. -/
theorem suppression_rule_lookup_order_counterexample :
    ruleKeyMatches cfgC5ex "t" "x" = true ∧
      canPopulateMatched ruleAllowAll "t" recC5ex (some []) = Except.ok true ∧
      (can_populate_node_record_field cfgC5ex "t" "x" recC5ex (some [])).isOk = false := by
  exact ⟨by decide, by decide, by decide⟩

/-- C5 amended: when none of the exact, bare or wildcard keys is configured
the field may be populated; when at least one key is configured the source
always reads the first rule in configuration order: if that first key does
not match the queried field and node type the call raises, and otherwise
that first rule (not the exact-over-bare-over-wildcard match) is applied. -/
theorem suppression_rule_lookup_amended (cfg : List (String × SuppressionRule))
    (nt fn : String) (r : SrcRecord) (s : Option (List (String × Subject))) :
    (ruleKeyMatches cfg nt fn = false →
      can_populate_node_record_field cfg nt fn r s = Except.ok true) ∧
    (∀ k ruleSpec rest, cfg = (k, ruleSpec) :: rest → ruleKeyMatches cfg nt fn = true →
      (((parseSuppressedKey k).2 ≠ fn ∨
          ((parseSuppressedKey k).1 ≠ nt ∧ (parseSuppressedKey k).1 ≠ "*")) →
        ∃ e, can_populate_node_record_field cfg nt fn r s = Except.error e) ∧
      ((parseSuppressedKey k).2 = fn →
        ((parseSuppressedKey k).1 = nt ∨ (parseSuppressedKey k).1 = "*") →
        can_populate_node_record_field cfg nt fn r s =
          canPopulateMatched ruleSpec nt r s)) := by
  constructor
  · intro hfalse
    rw [can_populate_node_record_field.eq_def, hfalse]
    simp
  · intro k ruleSpec rest hcfg hmatch
    subst hcfg
    constructor
    · intro hmis
      rw [can_populate_node_record_field, hmatch]
      rcases hmis with h1 | ⟨h1, h2⟩
      · simp only [Bool.not_true, Bool.false_eq_true, if_false]
        rw [if_pos]
        · exact ⟨_, rfl⟩
        · simp [h1]
      · simp only [Bool.not_true, Bool.false_eq_true, if_false]
        rw [if_pos]
        · exact ⟨_, rfl⟩
        · simp [h1, h2]
    · intro hkf hkt
      exact canPopulate_first_rule_reduces k ruleSpec rest nt fn r s hmatch hkf hkt

/-- C5 amended witness: an unconfigured field is allowed, and a single rule
configuration whose key exactly matches is applied as that rule. -/
theorem suppression_rule_lookup_amended_witness :
    can_populate_node_record_field cfgC4ex "lab" "lab_method" recStudyEx (some []) =
        Except.ok true ∧
      can_populate_node_record_field cfgC4ex "study" "treatment_arm" recStudyEx
          (some [("S1", subjC4ex)]) =
        canPopulateMatched ruleTreatmentArm "study" recStudyEx (some [("S1", subjC4ex)]) := by
  have h1 := (suppression_rule_lookup_amended cfgC4ex "lab" "lab_method" recStudyEx
    (some [])).1 (by decide)
  have h2 := (suppression_rule_lookup_amended cfgC4ex "study" "treatment_arm" recStudyEx
    (some [("S1", subjC4ex)])).2 "study.treatment_arm" ruleTreatmentArm [] rfl (by decide)
  exact ⟨h1, h2.2 (by decide) (Or.inl (by decide))⟩

/-! Claims C6, C7 and C9 support lemmas. -/

theorem applyLkss_subject (nr : NodeRecord) :
    applyLkssObfuscated NODE_TYPE_SUBJECT nr = nr := by
  rw [applyLkssObfuscated, if_neg]
  decide

theorem applyYearPatch_lookup_ne (timings : List (String × List Timing)) (i : String)
    (f : NodeRecord) (k : String) (hk : k ≠ "year_at_disease_phase") :
    (applyYearPatch timings i f).lookup k = f.lookup k := by
  rw [applyYearPatch]
  split
  · rfl
  · split
    · rfl
    · exact lookup_setEntry_ne _ _ _ _ hk

/-- C6 counterexample: a run over one project whose lab record has no
subjects key at all ends with an EMPTY problematic records sink (the record
is silently skipped, not recorded), contradicting the claim that a record
lacking any subject reference is recorded in the sink. -/
theorem problematic_sink_counterexample :
    generate_subject_json [] [("subject", rulesSubjectEx)] [] [] dataC6 ["subject", "lab"] =
      Except.ok ⟨[("S1", ⟨"SUBJ1", "S1", [("project_id", Val.str "prog-001")], []⟩)], []⟩ := by
  decide

/-- C6 amended: a non subject record without a subjects key is excluded from
every aggregate but silently skipped (nothing is recorded); a record with
more than one subject stub is excluded and its source record is appended to
the problematic sink; a record with a single subject stub that does not
resolve in the subject map has its populated output record appended to the
sink; none of the three conditions raises. -/
theorem unlinked_record_handling_amended (env : Env) (nt : String) (st : GenState)
    (r : SrcRecord) (hnt : nt ≠ NODE_TYPE_SUBJECT) :
    (r.subjects = none → processRecord env nt st r = Except.ok st) ∧
    (∀ stubs, r.subjects = some stubs → stubs.length > 1 →
      processRecord env nt st r =
        Except.ok { st with probs := st.probs ++ [ProbEntry.srcRec r] }) ∧
    (∀ stub rls base, r.subjects = some [stub] →
      env.rules.lookup nt = some rls →
      populate_fields env.cfg nt r (some st.subjects) rls = Except.ok base →
      st.subjects.lookup stub.submitter_id = none →
      processRecord env nt st r =
        Except.ok { st with
          probs := st.probs ++ [ProbEntry.outRec (applyLkssObfuscated nt base)] }) := by
  refine ⟨?_, ?_, ?_⟩
  · intro hnone
    rw [processRecord, if_neg hnt, hnone]
  · intro stubs hsubs hlen
    rw [processRecord, if_neg hnt]
    simp only [hsubs, if_pos hlen]
  · intro stub rls base hsubs hrls hbase hmiss
    have hlen : ¬ (([stub] : List Stub).length > 1) := by simp
    rw [processRecord, if_neg hnt]
    simp only [hsubs, if_neg hlen, populate_node_record.eq_def, hrls, hbase,
      except_bind_ok]
    rw [attachStubs, attachStub.eq_def]
    simp only [hmiss, except_bind_ok, attachStubs]

/-- C6 amended witness: a lab record without a subjects key leaves the state
untouched, and one with two subject stubs is recorded as problematic. -/
theorem unlinked_record_handling_amended_witness :
    processRecord envC7ex "lab" stC7ex labRecC6 = Except.ok stC7ex ∧
      processRecord envC7ex "lab" stC7ex labRecTwoSubjects =
        Except.ok ⟨stC7ex.subjects, [ProbEntry.srcRec labRecTwoSubjects]⟩ := by
  have h := unlinked_record_handling_amended envC7ex "lab" stC7ex labRecC6 (by decide)
  have h2 := unlinked_record_handling_amended envC7ex "lab" stC7ex labRecTwoSubjects
    (by decide)
  exact ⟨h.1 rfl, h2.2.1 [⟨"N1", "S1"⟩, ⟨"N2", "S2"⟩] rfl (by decide)⟩

/-- C7 counterexample: a lab record carrying two timing references, the
first of which is resolvable, produces an output record WITHOUT any timing
field (the source skips enrichment entirely on the too many timings path),
while the claim says the first resolvable timing is still used; the record
is appended to the problem sink and to the subject child collection
un-enriched. -/
theorem too_many_timings_counterexample :
    populate_node_record envC7ex "lab" recC7ex stC7ex =
      Except.ok (some [("lab_method", Val.str "blood")],
        ⟨[("S1", ⟨"N1", "S1", [], [("labs", [[("lab_method", Val.str "blood")]])]⟩)],
         [ProbEntry.srcRec recC7ex]⟩) ∧
      ([("lab_method", Val.str "blood")] : NodeRecord).lookup "timing_type" = none := by
  exact ⟨by decide, by decide⟩

/-- C7 amended: a record with more than one timing reference is flagged: the
source record is appended to the problem sink, NO timing field is copied
onto the output record, and the un-enriched output record is still appended
to the subject child collection. -/
theorem too_many_timings_amended (env : Env) (nt : String) (r : SrcRecord)
    (st : GenState) (rls : List (String × FieldSpec)) (base : NodeRecord)
    (stub : Stub) (subj : Subject) (nd : NodeDef) (ts : List Stub)
    (hnt_b : nt ≠ NODE_TYPE_BIOSPECIMEN)
    (hrls : env.rules.lookup nt = some rls)
    (hbase : populate_fields env.cfg nt r (some st.subjects) rls = Except.ok base)
    (hsubs : r.subjects = some [stub])
    (hsubj : st.subjects.lookup stub.submitter_id = some subj)
    (hdict : env.dict.lookup nt = some nd)
    (hts : r.timings = some ts)
    (hlen : ts.length > 1) :
    populate_node_record env nt r st =
      Except.ok (some (applyLkssObfuscated nt base),
        { subjects := updateSubjects st.subjects stub.submitter_id
            (addChildToSubject subj (get_pluralized_node_type_name nt)
              (applyLkssObfuscated nt base)),
          probs := st.probs ++ [ProbEntry.srcRec r] }) := by
  rw [populate_node_record.eq_def]
  simp only [hrls, hbase, except_bind_ok, hsubs]
  rw [attachStubs, attachStub.eq_def]
  simp only [hsubj, has_timing_association, hdict, except_bind_ok, hts, if_pos hlen,
    if_neg hnt_b, attachStubs]

/-- C7 amended witness: the concrete two timing lab record is attached
un-enriched and recorded as problematic. -/
theorem too_many_timings_amended_witness :
    populate_node_record envC7ex "lab" recC7ex stC7ex =
      Except.ok (some (applyLkssObfuscated "lab" [("lab_method", Val.str "blood")]),
        { subjects := updateSubjects stC7ex.subjects "S1"
            (addChildToSubject subjC7ex (get_pluralized_node_type_name "lab")
              (applyLkssObfuscated "lab" [("lab_method", Val.str "blood")])),
          probs := stC7ex.probs ++ [ProbEntry.srcRec recC7ex] }) := by
  exact too_many_timings_amended envC7ex "lab" recC7ex stC7ex
    [("lab_method", specStr)] [("lab_method", Val.str "blood")] ⟨"N1", "S1"⟩ subjC7ex
    ⟨["timings"]⟩ [⟨"T1", "t1"⟩, ⟨"T2", "t2"⟩] (by decide) (by decide) (by decide)
    (by decide) (by decide) (by decide) (by decide) (by decide)

/-- C9 counterexample: a subject whose project_id contains a second dash
(prog-001-x) makes create_subject_record raise (the two element tuple
unpacking of the split fails) instead of yielding a document whose auth
path uses the first dash split. -/
theorem auth_path_split_counterexample :
    (create_subject_record envC9ex (recC9 "prog-001-x")).isOk = false ∧
      pySplit "prog-001-x" '-' = ["prog", "001", "x"] := by
  exact ⟨by decide, by decide⟩

/-- C9 amended: for a subject record with exactly one associated person that
resolves, when the project_id found on the merged subject splits on dashes
into exactly a program and a project, the created document's
auth_resource_path is /programs/{program}/projects/{project}/persons/
{person_id}/subjects/{subject_submitter_id} and no problem record is
emitted; a project_id whose dash split has any other shape raises instead. -/
theorem auth_path_amended (env : Env) (r : SrcRecord)
    (subjectRules : List (String × FieldSpec)) (base : NodeRecord) (p : Stub)
    (personRec : NodeRecord) (pid prog proj per : String)
    (hrls : env.rules.lookup NODE_TYPE_SUBJECT = some subjectRules)
    (hbase : populate_fields env.cfg NODE_TYPE_SUBJECT r none subjectRules =
      Except.ok base)
    (hpers : r.persons = some [p])
    (hperson : env.persons.lookup p.node_id = some personRec)
    (hpid : (mergeFields base personRec).lookup "project_id" = some (Val.str pid))
    (hsplit : pySplit pid '-' = [prog, proj])
    (hper : (mergeFields base personRec).lookup "person_id" = some (Val.str per)) :
    Except.map (fun res => res.1.map (fun s => s.fields.lookup "auth_resource_path"))
        (create_subject_record env r) =
      Except.ok (some (some (Val.str ("/programs/" ++ prog ++ "/projects/" ++ proj ++
        "/persons/" ++ per ++ "/subjects/" ++ r.submitter_id)))) ∧
      Except.map (fun res => res.2) (create_subject_record env r) = Except.ok [] := by
  have hc : create_subject_record env r =
      Except.ok (some ⟨r.id, r.submitter_id,
        applyYearPatch env.timings r.id
          (setField (mergeFields base personRec) "auth_resource_path"
            (Val.str ("/programs/" ++ prog ++ "/projects/" ++ proj ++
              "/persons/" ++ per ++ "/subjects/" ++ r.submitter_id))), []⟩, []) := by
    rw [create_subject_record.eq_def]
    have hlen : ¬ (([p] : List Stub).length > 1) := by simp
    simp only [hrls, hbase, except_bind_ok, applyLkss_subject, hpers, if_neg hlen,
      mergePersonAndAuth, hperson, hpid, hsplit, hper]
  constructor
  · rw [hc]
    simp only [Except.map, Option.map]
    rw [applyYearPatch_lookup_ne _ _ _ _ (by decide), setField, lookup_setEntry_self]
  · rw [hc]
    rfl

/-- C9 amended witness: a subject with project_id prog-001 and one person
gets auth path /programs/prog/projects/001/persons/PS1/subjects/S1. -/
theorem auth_path_amended_witness :
    Except.map (fun res => res.1.map (fun s => s.fields.lookup "auth_resource_path"))
        (create_subject_record envC9ex (recC9 "prog-001")) =
      Except.ok (some (some
        (Val.str "/programs/prog/projects/001/persons/PS1/subjects/S1"))) := by
  have h := auth_path_amended envC9ex (recC9 "prog-001") rulesSubjectEx
    [("project_id", Val.str "prog-001")] ⟨"P1", "p1"⟩
    [("_person_id", Val.str "P1"), ("person_id", Val.str "PS1")]
    "prog-001" "prog" "001" "PS1" (by decide) (by decide) (by decide) (by decide)
    (by decide) (by decide) (by decide)
  exact h.1

/-! Claim C1 support lemmas. -/

theorem createdSubjectIds_cons (env : Env) (r : SrcRecord) (rs : List SrcRecord) :
    createdSubjectIds env (r :: rs) =
      (match create_subject_record env r with
       | Except.ok (some s, _) => [s.submitter_id]
       | _ => []) ++ createdSubjectIds env rs := by
  rcases hc : create_subject_record env r with e | ⟨s?, probs⟩
  · simp [createdSubjectIds, List.filterMap_cons, hc]
  · rcases s? with _ | s
    · simp [createdSubjectIds, List.filterMap_cons, hc]
    · simp [createdSubjectIds, List.filterMap_cons, hc]

theorem processRecord_subject_none (env : Env) (st : GenState) (r : SrcRecord)
    (probs : List ProbEntry)
    (hc : create_subject_record env r = Except.ok (none, probs)) :
    processRecord env NODE_TYPE_SUBJECT st r =
      Except.ok ⟨st.subjects, st.probs ++ probs⟩ := by
  rw [processRecord, if_pos rfl, hc, except_bind_ok]

theorem processRecord_subject_some (env : Env) (st : GenState) (r : SrcRecord)
    (s : Subject) (probs : List ProbEntry)
    (hc : create_subject_record env r = Except.ok (some s, probs)) :
    processRecord env NODE_TYPE_SUBJECT st r =
      (if (st.subjects.lookup s.submitter_id).isSome then
        Except.error
          ("RuntimeError: duplicate subject submitter id found: " ++ s.submitter_id)
      else Except.ok ⟨st.subjects ++ [(s.submitter_id, s)], st.probs ++ probs⟩) := by
  rw [processRecord, if_pos rfl, hc, except_bind_ok]

theorem processSubjects_ok (env : Env) :
    ∀ (rs : List SrcRecord) (st : GenState),
      (∀ r ∈ rs, ∃ x, create_subject_record env r = Except.ok x) →
      (st.subjects.map Prod.fst ++ createdSubjectIds env rs).Nodup →
      ∃ st', processRecords env NODE_TYPE_SUBJECT st rs = Except.ok st' ∧
        st'.subjects.map Prod.fst = st.subjects.map Prod.fst ++ createdSubjectIds env rs := by
  intro rs
  induction rs with
  | nil =>
    intro st hok hnd
    refine ⟨st, rfl, ?_⟩
    rw [createdSubjectIds]
    simp
  | cons r rs ih =>
    intro st hok hnd
    obtain ⟨⟨s?, probs⟩, hc⟩ := hok r (List.mem_cons_self r rs)
    rw [createdSubjectIds_cons env r rs] at hnd
    have hok' : ∀ r2 ∈ rs, ∃ x, create_subject_record env r2 = Except.ok x :=
      fun r2 hr2 => hok r2 (List.mem_cons_of_mem r hr2)
    rcases s? with _ | s
    · simp only [hc] at hnd
      rw [processRecords, processRecord_subject_none env st r probs hc, except_bind_ok]
      obtain ⟨st', h1, h2⟩ := ih ⟨st.subjects, st.probs ++ probs⟩ hok' (by simpa using hnd)
      refine ⟨st', h1, ?_⟩
      rw [createdSubjectIds_cons env r rs]
      simp only [hc]
      simpa using h2
    · simp only [hc] at hnd
      have hmem : s.submitter_id ∉ st.subjects.map Prod.fst := by
        intro hm
        have hd := (List.nodup_append.mp (by simpa using hnd)).2.2
        exact hd hm (List.mem_cons_self _ _)
      have hlook : ¬ ((st.subjects.lookup s.submitter_id).isSome = true) := by
        rw [lookup_isSome_iff_mem]
        exact hmem
      rw [processRecords, processRecord_subject_some env st r s probs hc,
        if_neg hlook, except_bind_ok]
      have hnd3 : ((st.subjects ++ [(s.submitter_id, s)]).map Prod.fst ++
          createdSubjectIds env rs).Nodup := by
        rw [List.map_append, List.append_assoc]
        simpa using hnd
      obtain ⟨st', h1, h2⟩ :=
        ih ⟨st.subjects ++ [(s.submitter_id, s)], st.probs ++ probs⟩ hok' hnd3
      refine ⟨st', h1, ?_⟩
      rw [createdSubjectIds_cons env r rs]
      simp only [hc]
      rw [h2]
      simp [List.map_append, List.append_assoc]

theorem processSubjects_dup_error (env : Env) :
    ∀ (rs : List SrcRecord) (st : GenState),
      (∀ r ∈ rs, ∃ x, create_subject_record env r = Except.ok x) →
      (st.subjects.map Prod.fst).Nodup →
      ¬ (st.subjects.map Prod.fst ++ createdSubjectIds env rs).Nodup →
      ∃ e, processRecords env NODE_TYPE_SUBJECT st rs = Except.error e := by
  intro rs
  induction rs with
  | nil =>
    intro st hok hnd hnot
    exfalso
    apply hnot
    rw [createdSubjectIds]
    simpa using hnd
  | cons r rs ih =>
    intro st hok hnd hnot
    obtain ⟨⟨s?, probs⟩, hc⟩ := hok r (List.mem_cons_self r rs)
    have hok' : ∀ r2 ∈ rs, ∃ x, create_subject_record env r2 = Except.ok x :=
      fun r2 hr2 => hok r2 (List.mem_cons_of_mem r hr2)
    rw [createdSubjectIds_cons env r rs] at hnot
    rcases s? with _ | s
    · simp only [hc] at hnot
      rw [processRecords, processRecord_subject_none env st r probs hc, except_bind_ok]
      obtain ⟨e, he⟩ := ih ⟨st.subjects, st.probs ++ probs⟩ hok' (by simpa using hnd)
        (by simpa using hnot)
      exact ⟨e, he⟩
    · simp only [hc] at hnot
      rw [processRecords, processRecord_subject_some env st r s probs hc]
      by_cases hm : s.submitter_id ∈ st.subjects.map Prod.fst
      · have hlook : (st.subjects.lookup s.submitter_id).isSome = true :=
          (lookup_isSome_iff_mem _ _).mpr hm
        rw [if_pos hlook, except_bind_error]
        exact ⟨_, rfl⟩
      · have hlook : ¬ ((st.subjects.lookup s.submitter_id).isSome = true) := by
          rw [lookup_isSome_iff_mem]
          exact hm
        rw [if_neg hlook, except_bind_ok]
        have hnd3 : ((st.subjects ++ [(s.submitter_id, s)]).map Prod.fst).Nodup := by
          rw [List.map_append, List.nodup_append]
          refine ⟨hnd, by simp, ?_⟩
          intro a ha hb
          have hab : a = s.submitter_id := by simpa using hb
          rw [hab] at ha
          exact hm ha
        have hnot3 : ¬ (((st.subjects ++ [(s.submitter_id, s)]).map Prod.fst ++
            createdSubjectIds env rs).Nodup) := by
          intro hcon
          apply hnot
          rw [List.map_append, List.append_assoc] at hcon
          simpa using hcon
        obtain ⟨e, he⟩ :=
          ih ⟨st.subjects ++ [(s.submitter_id, s)], st.probs ++ probs⟩ hok' hnd3 hnot3
        exact ⟨e, he⟩

/-- C1: over a subject record list in which every create call succeeds, the
subject pass inserts exactly one document per distinct submitter id: when the
created submitter ids are pairwise distinct the pass succeeds and the subject
map holds exactly those ids (so its size equals the number of distinct ids),
and when a second created subject repeats an id the pass raises the fatal
duplicate subject error instead of inserting or overwriting. -/
theorem unique_subject_documents (env : Env) (rs : List SrcRecord)
    (hok : ∀ r ∈ rs, ∃ x, create_subject_record env r = Except.ok x) :
    ((createdSubjectIds env rs).Nodup →
      ∃ st, processRecords env NODE_TYPE_SUBJECT ⟨[], []⟩ rs = Except.ok st ∧
        st.subjects.map Prod.fst = createdSubjectIds env rs ∧
        st.subjects.length = (createdSubjectIds env rs).dedup.length) ∧
    (¬ (createdSubjectIds env rs).Nodup →
      ∃ e, processRecords env NODE_TYPE_SUBJECT ⟨[], []⟩ rs = Except.error e) := by
  constructor
  · intro hnd
    obtain ⟨st, h1, h2⟩ := processSubjects_ok env rs ⟨[], []⟩ hok (by simpa using hnd)
    refine ⟨st, h1, by simpa using h2, ?_⟩
    have hlen : st.subjects.length = (st.subjects.map Prod.fst).length :=
      (List.length_map _ _).symm
    rw [hlen, h2, List.Nodup.dedup hnd]
    simp
  · intro hnot
    exact processSubjects_dup_error env rs ⟨[], []⟩ hok (by simp) (by simpa using hnot)

/-- C1 witness: two subjects with distinct submitter ids are both inserted,
and repeating the submitter id S1 on a second distinct record aborts the
subject pass with an error. -/
theorem unique_subject_documents_witness :
    (createdSubjectIds envSubjEx [subjRecA, subjRecB]).Nodup ∧
      (processRecords envSubjEx NODE_TYPE_SUBJECT ⟨[], []⟩ [subjRecA, subjRecB]).isOk = true ∧
      (processRecords envSubjEx NODE_TYPE_SUBJECT ⟨[], []⟩ [subjRecA, subjRecDup]).isOk = false := by
  have hok1 : ∀ r ∈ [subjRecA, subjRecB], ∃ x, create_subject_record envSubjEx r = Except.ok x := by
    intro r hr
    rcases List.mem_cons.mp hr with rfl | hr2
    · exact ⟨_, rfl⟩
    · rcases List.mem_cons.mp hr2 with rfl | hr3
      · exact ⟨_, rfl⟩
      · cases hr3
  have hok2 : ∀ r ∈ [subjRecA, subjRecDup], ∃ x, create_subject_record envSubjEx r = Except.ok x := by
    intro r hr
    rcases List.mem_cons.mp hr with rfl | hr2
    · exact ⟨_, rfl⟩
    · rcases List.mem_cons.mp hr2 with rfl | hr3
      · exact ⟨_, rfl⟩
      · cases hr3
  obtain ⟨st, hst, _, _⟩ :=
    (unique_subject_documents envSubjEx [subjRecA, subjRecB] hok1).1 (by decide)
  obtain ⟨e, he⟩ :=
    (unique_subject_documents envSubjEx [subjRecA, subjRecDup] hok2).2 (by decide)
  refine ⟨by decide, ?_, ?_⟩
  · rw [hst]
    rfl
  · rw [he]
    rfl

/-! Claims C2 and C8 support lemmas. -/

theorem groupSC_single_subject (s : String) (hs : s ≠ "") :
    ∀ (rs : List SrcRecord) (acc : List SrcRecord),
      (∀ r ∈ rs, r.typ = some NODE_TYPE_SURVIVAL_CHARACTERISTIC) →
      (∀ r ∈ rs, ∃ nid, r.subjects = some [⟨nid, s⟩]) →
      groupSurvivalCharacteristics rs [(s, acc)] = Except.ok [(s, acc ++ rs)] := by
  intro rs
  induction rs with
  | nil =>
    intro acc _ _
    rw [groupSurvivalCharacteristics]
    simp
  | cons r rs ih =>
    intro acc htyp hstub
    obtain ⟨nid, hsub⟩ := hstub r (List.mem_cons_self r rs)
    have htyp_r := htyp r (List.mem_cons_self r rs)
    rw [groupSurvivalCharacteristics]
    rw [if_neg (by simp [htyp_r])]
    simp only [hsub]
    rw [addRecordToGroups]
    simp only [if_neg hs]
    rw [addRecordToGroups]
    rw [except_bind_ok]
    have happ : addToGroups [(s, acc)] s r = [(s, acc ++ [r])] := by
      rw [addToGroups, appendEntry, if_pos rfl]
    rw [happ]
    rw [ih (acc ++ [r]) (fun r2 hr2 => htyp r2 (List.mem_cons_of_mem r hr2))
      (fun r2 hr2 => hstub r2 (List.mem_cons_of_mem r hr2))]
    simp

theorem groupSC_all_one_subject (s : String) (hs : s ≠ "") (rs : List SrcRecord)
    (hne : rs ≠ [])
    (htyp : ∀ r ∈ rs, r.typ = some NODE_TYPE_SURVIVAL_CHARACTERISTIC)
    (hstub : ∀ r ∈ rs, ∃ nid, r.subjects = some [⟨nid, s⟩]) :
    groupSurvivalCharacteristics rs [] = Except.ok [(s, rs)] := by
  rcases rs with _ | ⟨r, rest⟩
  · cases hne rfl
  · obtain ⟨nid, hsub⟩ := hstub r (List.mem_cons_self r rest)
    have htyp_r := htyp r (List.mem_cons_self r rest)
    rw [groupSurvivalCharacteristics]
    rw [if_neg (by simp [htyp_r])]
    simp only [hsub]
    rw [addRecordToGroups]
    simp only [if_neg hs]
    rw [addRecordToGroups]
    rw [except_bind_ok]
    have happ : addToGroups [] s r = [(s, [r])] := by
      rw [addToGroups, appendEntry]
    rw [happ]
    rw [groupSC_single_subject s hs rest [r]
      (fun r2 hr2 => htyp r2 (List.mem_cons_of_mem r hr2))
      (fun r2 hr2 => hstub r2 (List.mem_cons_of_mem r hr2))]
    rfl

/-- C2: for a group of survival characteristic records of one subject, the
flatten pass emits exactly the representative selected as the first record
with lkss Dead in the stable descending sort by (age present, age value or
zero), falling back to the first sorted record; the sorted order is indeed
descending in that key and a permutation of the group. -/
theorem survival_tiebreak_selection (rs : List SrcRecord) (s : String)
    (hs : s ≠ "") (hne : rs ≠ [])
    (htyp : ∀ r ∈ rs, r.typ = some NODE_TYPE_SURVIVAL_CHARACTERISTIC)
    (hstub : ∀ r ∈ rs, ∃ nid, r.subjects = some [⟨nid, s⟩]) :
    sort_and_flatten_survival_characteristics rs =
        Except.ok ((selectPreferredSurvival rs).toList) ∧
      (∀ d, (sortSurvivalGroup rs).find? isDeadRecord = some d →
        selectPreferredSurvival rs = some d) ∧
      ((sortSurvivalGroup rs).find? isDeadRecord = none →
        selectPreferredSurvival rs = (sortSurvivalGroup rs).head?) ∧
      List.Pairwise scKeyGE (sortSurvivalGroup rs) ∧
      (sortSurvivalGroup rs).Perm rs := by
  refine ⟨?_, ?_, ?_, ?_, ?_⟩
  · rw [sort_and_flatten_survival_characteristics]
    rw [groupSC_all_one_subject s hs rs hne htyp hstub, except_bind_ok]
    rw [flattenGroups, flattenGroups]
    simp
  · intro d hd
    rw [selectPreferredSurvival, hd]
  · intro hd
    rw [selectPreferredSurvival, hd]
  · exact List.sorted_insertionSort scKeyGE rs
  · exact List.perm_insertionSort scKeyGE rs

/-- C2 witness: for ages 10 Alive, 20 Dead, 30 Alive the selected record is
the Dead one with age 20. -/
theorem survival_tiebreak_selection_witness :
    sort_and_flatten_survival_characteristics [scEx10, scEx20, scEx30] =
        Except.ok ((selectPreferredSurvival [scEx10, scEx20, scEx30]).toList) ∧
      sort_and_flatten_survival_characteristics [scEx10, scEx20, scEx30] =
        Except.ok [scEx20] := by
  have htyp : ∀ r ∈ [scEx10, scEx20, scEx30],
      r.typ = some NODE_TYPE_SURVIVAL_CHARACTERISTIC := by
    intro r hr
    rcases List.mem_cons.mp hr with rfl | hr2
    · rfl
    · rcases List.mem_cons.mp hr2 with rfl | hr3
      · rfl
      · rcases List.mem_cons.mp hr3 with rfl | hr4
        · rfl
        · cases hr4
  have hstub : ∀ r ∈ [scEx10, scEx20, scEx30], ∃ nid, r.subjects = some [⟨nid, "S1"⟩] := by
    intro r hr
    rcases List.mem_cons.mp hr with rfl | hr2
    · exact ⟨"N1", rfl⟩
    · rcases List.mem_cons.mp hr2 with rfl | hr3
      · exact ⟨"N1", rfl⟩
      · rcases List.mem_cons.mp hr3 with rfl | hr4
        · exact ⟨"N1", rfl⟩
        · cases hr4
  have h := survival_tiebreak_selection [scEx10, scEx20, scEx30] "S1" (by decide)
    (List.cons_ne_nil _ _) htyp hstub
  exact ⟨h.1, by decide⟩

theorem appendEntry_not_mem {α : Type} (l : List (String × List α)) (k : String) (x : α)
    (h : k ∉ l.map Prod.fst) : appendEntry l k x = l ++ [(k, [x])] := by
  induction l with
  | nil => rfl
  | cons p rest ih =>
    have hk : ¬ (p.1 = k) := by
      intro hc
      apply h
      rw [← hc]
      exact List.mem_cons_self _ _
    rw [appendEntry, if_neg hk]
    rw [ih (fun hc => h (List.mem_cons_of_mem _ hc))]
    rfl

theorem groupSC_distinct :
    ∀ (rs : List SrcRecord) (gs0 : List (String × List SrcRecord)),
      (∀ r ∈ rs, r.typ = some NODE_TYPE_SURVIVAL_CHARACTERISTIC) →
      (∀ r ∈ rs, ∃ stub, r.subjects = some [stub] ∧ stub.submitter_id ≠ "") →
      (gs0.map Prod.fst ++ rs.map recSid).Nodup →
      groupSurvivalCharacteristics rs gs0 =
        Except.ok (gs0 ++ rs.map (fun r => (recSid r, [r]))) := by
  intro rs
  induction rs with
  | nil =>
    intro gs0 _ _ _
    rw [groupSurvivalCharacteristics]
    simp
  | cons r rs ih =>
    intro gs0 htyp hstub hnd
    obtain ⟨stub, hsub, hsid⟩ := hstub r (List.mem_cons_self r rs)
    have htyp_r := htyp r (List.mem_cons_self r rs)
    have hrec : recSid r = stub.submitter_id := by
      rw [recSid, hsub]
    have hnotin : stub.submitter_id ∉ gs0.map Prod.fst := by
      intro hm
      have hd := (List.nodup_append.mp hnd).2.2
      apply hd hm
      rw [List.map_cons, hrec]
      exact List.mem_cons_self _ _
    rw [groupSurvivalCharacteristics]
    rw [if_neg (by simp [htyp_r])]
    simp only [hsub]
    rw [addRecordToGroups]
    simp only [if_neg hsid]
    rw [addRecordToGroups]
    rw [except_bind_ok]
    rw [addToGroups, appendEntry_not_mem gs0 stub.submitter_id r hnotin]
    have hnd2 : ((gs0 ++ [(stub.submitter_id, [r])]).map Prod.fst ++ rs.map recSid).Nodup := by
      rw [List.map_append, List.append_assoc]
      rw [List.map_cons, hrec] at hnd
      simpa using hnd
    rw [ih (gs0 ++ [(stub.submitter_id, [r])])
      (fun r2 hr2 => htyp r2 (List.mem_cons_of_mem r hr2))
      (fun r2 hr2 => hstub r2 (List.mem_cons_of_mem r hr2)) hnd2]
    rw [List.map_cons, hrec, List.append_assoc]
    rfl

theorem selectPreferred_singleton (r : SrcRecord) :
    selectPreferredSurvival [r] = some r := by
  rw [selectPreferredSurvival]
  have hsort : sortSurvivalGroup [r] = [r] := rfl
  rw [hsort]
  cases h : isDeadRecord r
  · simp [List.find?, h]
  · simp [List.find?, h]

theorem flattenGroups_singletons : ∀ (rs : List SrcRecord),
    flattenGroups (rs.map (fun r => (recSid r, [r]))) = rs := by
  intro rs
  induction rs with
  | nil => rfl
  | cons r rest ih =>
    rw [List.map_cons, flattenGroups, selectPreferred_singleton, ih]
    rfl

/-- C8: flattening an already flattened survival characteristic input (every
record of the expected type, with exactly one subject stub carrying a valid
submitter id, and no two records sharing a subject) returns the input list
unchanged, element for element and in order. -/
theorem survival_flatten_idempotent (rs : List SrcRecord)
    (htyp : ∀ r ∈ rs, r.typ = some NODE_TYPE_SURVIVAL_CHARACTERISTIC)
    (hstub : ∀ r ∈ rs, ∃ stub, r.subjects = some [stub] ∧ stub.submitter_id ≠ "")
    (hnd : (rs.map recSid).Nodup) :
    sort_and_flatten_survival_characteristics rs = Except.ok rs := by
  rw [sort_and_flatten_survival_characteristics]
  rw [groupSC_distinct rs [] htyp hstub (by simpa using hnd), except_bind_ok]
  rw [List.nil_append, flattenGroups_singletons]

/-- C8 witness: a two record, two subject flattened input is returned
unchanged. -/
theorem survival_flatten_idempotent_witness :
    sort_and_flatten_survival_characteristics [scFlatA, scFlatB] =
      Except.ok [scFlatA, scFlatB] := by
  have htyp : ∀ r ∈ [scFlatA, scFlatB],
      r.typ = some NODE_TYPE_SURVIVAL_CHARACTERISTIC := by
    intro r hr
    rcases List.mem_cons.mp hr with rfl | hr2
    · rfl
    · rcases List.mem_cons.mp hr2 with rfl | hr3
      · rfl
      · cases hr3
  have hstub : ∀ r ∈ [scFlatA, scFlatB],
      ∃ stub, r.subjects = some [stub] ∧ stub.submitter_id ≠ "" := by
    intro r hr
    rcases List.mem_cons.mp hr with rfl | hr2
    · exact ⟨⟨"Na", "Sa"⟩, rfl, by decide⟩
    · rcases List.mem_cons.mp hr2 with rfl | hr3
      · exact ⟨⟨"Nb", "Sb"⟩, rfl, by decide⟩
      · cases hr3
  exact survival_flatten_idempotent [scFlatA, scFlatB] htyp hstub (by decide)

end Gen3Etl
